import Mathlib

/-!
Verification development for the Patent-Miner scoring pipeline.

This file gives a shallow embedding, over the rationals, of the
deterministic scoring and valuation core of the repository:

* `scoring_utils.py`   — clamp, text normalization, tokenization,
  term coverage, TF-IDF vectors and cosine similarity;
* `viability_scoring.py` — ISO-date parsing, expiration-confidence
  scoring, market-domain classification, the viability scorecard;
* `patent_discovery.py` — record normalization, multi-pass
  deduplication, keyword expansion, and the v2 retrieval reranker;
* `patent_analysis_framework.py` — the bounded-bisection IRR solver,
  the 10-year scenario DCF model, the deterministic Monte Carlo
  envelope, and the integrated score / confidence computation.

Modelling conventions:

* Python floats are modelled as exact rationals (`ℚ`); decimal literals
  of the source appear as the corresponding rational constants.
* `math.log`, `math.sqrt` and `np.log1p` are transcendental, hence not
  rational-valued; they are taken as explicit function parameters
  (`logQ`, `sqrtQ`, `log1p`) of the embedded definitions, so every
  theorem proved about those definitions holds for every possible
  value of these functions.
* `numpy.random.default_rng(seed)` is a fixed deterministic function of
  the seed.  A run's generator is modelled as a stream
  `z : ℕ → ℕ → ℚ` mapping a seed and a draw index to the standard
  normal draw used by the code; `rng.normal(m, s)` is `m + s * draw`.
  Two operating-system processes ("runs") are two such streams; the
  numpy guarantee is that both streams agree on every seeded sequence.
* Python `dict`s keep insertion order; they are modelled as
  association lists that append fresh keys at the end.
* Python string lowercasing is modelled on its ASCII fragment
  (`Char.toLower`), and `\s` / `str.split()` whitespace on the ASCII
  whitespace characters.
* `round(x, 3)` is modelled as exact round-half-to-even at three
  decimal places.
-/

namespace PatentMiner

/-- Clamp of `scoring_utils.clamp`: `max(lower, min(upper, value))`. -/
def clamp (value lower upper : ℚ) : ℚ := max lower (min upper value)

/-- The `clamp(x)` default form with bounds 0 and 10. -/
def clamp10 (value : ℚ) : ℚ := clamp value 0 10

/-- Clip of `np.clip(x, lo, hi)`: `min(max(x, lo), hi)`. -/
def npClip (x lo hi : ℚ) : ℚ := min (max x lo) hi

/-- Exact power on rationals, mirroring the Python `**` with a natural
exponent. -/
def qpow (q : ℚ) : ℕ → ℚ
  | 0 => 1
  | n + 1 => qpow q n * q

/-- Round-half-to-even at three decimal places, the model of the
Python `round(x, 3)`. -/
def roundQ3 (q : ℚ) : ℚ :=
  let y : ℚ := q * 1000
  let f : ℤ := ⌊y⌋
  let r : ℚ := y - f
  if r < 1/2 then (f : ℚ) / 1000
  else if (1/2 : ℚ) < r then ((f : ℚ) + 1) / 1000
  else if f % 2 = 0 then (f : ℚ) / 1000 else ((f : ℚ) + 1) / 1000

/-- Prefix test on character lists. -/
def isPrefixCh : List Char → List Char → Bool
  | [], _ => true
  | _ :: _, [] => false
  | a :: as, b :: bs => a == b && isPrefixCh as bs

/-- Infix (contiguous substring) test on character lists. -/
def isInfixCh (needle : List Char) : List Char → Bool
  | [] => isPrefixCh needle []
  | c :: cs => isPrefixCh needle (c :: cs) || isInfixCh needle cs

/-- Python substring containment `needle in hay`. -/
def pyIn (needle hay : String) : Bool := isInfixCh needle.data hay.data

/-- Split a character list at every occurrence of a separator
character, as Python `str.split(sep)` with a one-character separator. -/
def splitChGo (sep : Char) : List Char → List Char → List (List Char)
  | [], cur => [cur.reverse]
  | c :: cs, cur =>
    if c == sep then cur.reverse :: splitChGo sep cs []
    else splitChGo sep cs (c :: cur)

/-- Parse a non-empty all-digit character list as a natural number, as
the digit fields matched by `strptime`. -/
def parseDigits (cs : List Char) : Option ℕ :=
  if cs.isEmpty || !(cs.all Char.isDigit) then none
  else some (cs.foldl (fun a c => a * 10 + (c.toNat - 48)) 0)

/-- Python `" ".join(l)`. -/
def joinSpace : List String → String
  | [] => ""
  | [s] => s
  | s :: rest => s ++ " " ++ joinSpace rest

/-- Character comparison by code point. -/
def chLt (a b : Char) : Bool := a.toNat < b.toNat

/-- Lexicographic strict comparison of character lists by code point,
as Python string `<`. -/
def strLtCh : List Char → List Char → Bool
  | [], [] => false
  | [], _ :: _ => true
  | _ :: _, [] => false
  | a :: as, b :: bs => chLt a b || (a == b && strLtCh as bs)

/-- Python string `<`. -/
def strLt (a b : String) : Bool := strLtCh a.data b.data

/-- Python string `<=`. -/
def strLe (a b : String) : Bool := strLt a b || a == b

/-- The ascending order used to model Python `sorted` on strings. -/
def strLeRel (a b : String) : Prop := strLe a b = true

instance : DecidableRel strLeRel := fun _ _ => decEq _ _

/-- Python `str.lower()` on the ASCII fragment. -/
def asciiLower (s : String) : String := ⟨s.data.map Char.toLower⟩

/-- Sum of character ordinals, the model of
`sum(ord(ch) for ch in s)`. -/
def ordSum (s : String) : ℕ := s.data.foldl (fun a c => a + c.toNat) 0

/-- Python truthiness of a string: non-empty. -/
def truthyS (s : String) : Bool := !(s == "")

/-- Python truthiness of an optional string: present and non-empty. -/
def truthyO (o : Option String) : Bool := truthyS (o.getD "")

/-- `a or b` on optional strings under Python truthiness, returning a
plain string with default `d`. -/
def firstTruthyD (l : List (Option String)) (d : String) : String :=
  match l with
  | [] => d
  | o :: rest => if truthyO o then o.getD "" else firstTruthyD rest d

/-- ASCII whitespace recognized by `\s` and `str.split()` (ASCII
fragment). -/
def isPyWs (c : Char) : Bool :=
  c == ' ' || c == '\t' || c == '\n' || c.toNat == 13 || c.toNat == 11 || c.toNat == 12

/-- Python `str.strip()` on ASCII whitespace. -/
def pyStrip (s : String) : String :=
  ⟨((s.data.dropWhile isPyWs).reverse.dropWhile isPyWs).reverse⟩

/-- Lower-case ASCII letter or digit, the characters kept by the
`[^a-z0-9\s]` normalization regex after lowercasing. -/
def isLowerAlnum (c : Char) : Bool :=
  (97 ≤ c.toNat && c.toNat ≤ 122) || (48 ≤ c.toNat && c.toNat ≤ 57)

/-- `scoring_utils.normalize_text`: lowercase, then replace every
character that is not `[a-z0-9\s]` by a space.  (The source collapses
runs of such characters into a single space; both forms split into the
same tokens.) -/
def normalize_text (s : String) : String :=
  ⟨(s.data.map Char.toLower).map (fun c => if isLowerAlnum c || isPyWs c then c else ' ')⟩

/-- Split a character list on whitespace runs, as Python `str.split()`
with no arguments. -/
def splitWsGo : List Char → List Char → List (List Char)
  | [], cur => if cur.isEmpty then [] else [cur.reverse]
  | c :: cs, cur =>
    if isPyWs c then
      if cur.isEmpty then splitWsGo cs [] else cur.reverse :: splitWsGo cs []
    else splitWsGo cs (c :: cur)

/-- Stop-word list of `scoring_utils.STOPWORDS`. -/
def STOPWORDS : List String :=
  ["a", "an", "and", "are", "as", "at", "be", "by", "for", "from", "in",
   "into", "is", "it", "of", "on", "or", "that", "the", "to", "with"]

/-- `scoring_utils.tokenize_text`: normalize, split on whitespace, and
drop tokens of length ≤ 1 and stop-words. -/
def tokenize_text (s : String) : List String :=
  ((splitWsGo (normalize_text s).data []).map (fun cs => (⟨cs⟩ : String))).filter
    (fun t => 1 < t.length && !(STOPWORDS.contains t))

/-- `scoring_utils.term_coverage`: fraction of the distinct non-empty
query terms present in the document token set (0 for an empty query). -/
def term_coverage (query_terms text_tokens : List String) : ℚ :=
  let query := (query_terms.filter (fun t => t ≠ "")).dedup
  if query.isEmpty then 0
  else ((query.countP (fun t => text_tokens.contains t) : ℚ)) / (query.length : ℚ)

/-- `scoring_utils.build_idf` with the natural logarithm supplied as
`logQ`: smoothed IDF `log((1+N)/(1+df)) + 1` per token of the corpus. -/
def build_idf (logQ : ℚ → ℚ) (corpus : List (List String)) : List (String × ℚ) :=
  if corpus.isEmpty then []
  else
    let n := corpus.length
    let docSets := corpus.map List.dedup
    (docSets.flatten.dedup).map
      (fun t =>
        (t, logQ ((1 + (n : ℚ)) / (1 + (docSets.countP (fun d => d.contains t) : ℚ))) + 1))

/-- `scoring_utils.tfidf_vector`: sparse TF×IDF vector over the
distinct tokens, with IDF default 1. -/
def tfidf_vector (tokens : List String) (idf : List (String × ℚ)) : List (String × ℚ) :=
  if tokens.isEmpty then []
  else
    let size : ℚ := (tokens.length : ℚ)
    tokens.dedup.map
      (fun t => (t, ((tokens.count t : ℚ) / size) * ((idf.lookup t).getD 1)))

/-- `scoring_utils.cosine_similarity` with `math.sqrt` supplied as
`sqrtQ`: dot product over the common keys divided by the product of the
norms, 0 on empty vectors or zero norms. -/
def cosine_similarity (sqrtQ : ℚ → ℚ) (va vb : List (String × ℚ)) : ℚ :=
  if va.isEmpty || vb.isEmpty then 0
  else
    let dot := (va.map (fun p => match vb.lookup p.1 with
      | some w => p.2 * w
      | none => 0)).sum
    let na := sqrtQ ((va.map (fun p => p.2 * p.2)).sum)
    let nb := sqrtQ ((vb.map (fun p => p.2 * p.2)).sum)
    if na = 0 || nb = 0 then 0 else dot / (na * nb)

/-- `scoring_utils.tfidf_cosine_similarity`: TF-IDF cosine similarity
of query and document over the corpus extended with both. -/
def tfidf_cosine_similarity (logQ sqrtQ : ℚ → ℚ)
    (query_text doc_text : String) (corpus_docs : List String) : ℚ :=
  let query_tokens := tokenize_text query_text
  let doc_tokens := tokenize_text doc_text
  let corpus_tokens := (corpus_docs.map tokenize_text) ++ [query_tokens, doc_tokens]
  let idf := build_idf logQ corpus_tokens
  cosine_similarity sqrtQ (tfidf_vector query_tokens idf) (tfidf_vector doc_tokens idf)

/-- A calendar date, as Python `datetime.date`. -/
structure YMD where
  year : ℕ
  month : ℕ
  day : ℕ
deriving DecidableEq, Repr

/-- Gregorian leap-year test. -/
def isLeapYear (y : ℕ) : Bool := y % 4 == 0 && (y % 100 != 0 || y % 400 == 0)

/-- Number of days in a month of a given year. -/
def daysInMonth (y m : ℕ) : ℕ :=
  if m = 1 then 31
  else if m = 2 then (if isLeapYear y then 29 else 28)
  else if m = 3 then 31
  else if m = 4 then 30
  else if m = 5 then 31
  else if m = 6 then 30
  else if m = 7 then 31
  else if m = 8 then 31
  else if m = 9 then 30
  else if m = 10 then 31
  else if m = 11 then 30
  else 31

/-- Days in the months of year `y` strictly before month `m`. -/
def daysBeforeMonth (y : ℕ) : ℕ → ℕ
  | 0 => 0
  | m + 1 => if m = 0 then 0 else daysBeforeMonth y m + daysInMonth y m

/-- Proleptic-Gregorian ordinal of a date, with 0001-01-01 ↦ 1, as
Python `date.toordinal()`. -/
def toOrdinal (d : YMD) : ℕ :=
  365 * (d.year - 1) + ((d.year - 1) / 4 - (d.year - 1) / 100) + (d.year - 1) / 400
    + daysBeforeMonth d.year d.month + d.day

/-- Signed day difference `a - b`, as Python `(a - b).days`. -/
def daysBetween (a b : YMD) : ℤ := (toOrdinal a : ℤ) - (toOrdinal b : ℤ)

/-- Validity of a parsed date, as checked by
`datetime.strptime(value, "%Y-%m-%d")`. -/
def validYMD (d : YMD) : Bool :=
  1 ≤ d.year && d.year ≤ 9999 && 1 ≤ d.month && d.month ≤ 12
    && 1 ≤ d.day && d.day ≤ daysInMonth d.year d.month

/-- `viability_scoring._iso_date`: parse a `YYYY-MM-DD` string, `none`
on anything malformed or out of range. -/
def isoDate (s : String) : Option YMD :=
  match splitChGo '-' s.data [] with
  | [ys, ms, ds] =>
    match parseDigits ys, parseDigits ms, parseDigits ds with
    | some y, some m, some d =>
      let date : YMD := ⟨y, m, d⟩
      if validYMD date then some date else none
    | _, _, _ => none
  | _ => none

/-- Parse with the `str(x or "")` wrapper applied by the callers of
`_iso_date`. -/
def isoDateOfOpt (o : Option String) : Option YMD := isoDate (o.getD "")

/-- A normalized candidate record: the internal dictionary shape
produced by `normalize_patent_record` and consumed by the reranker and
the viability scorer.  Optional fields model keys that may be absent or
`None`; `hits` models `_retrieval_pass_hits` (default empty). -/
structure NRecord where
  patent_number : String := ""
  title : String := ""
  abstract : String := ""
  link : String := ""
  patent_date : Option String := none
  filing_date : Option String := none
  assignee_type : Option String := none
  source_provider : String := ""
  patent_type : Option String := none
  patent_title : Option String := none
  patent_abstract : Option String := none
  hits : List String := []
deriving DecidableEq, Repr

/-- `viability_scoring._compose_patent_text`:
`(title or patent_title or "") + " " + (abstract or patent_abstract or "")`. -/
def compose_patent_text (p : NRecord) : String :=
  firstTruthyD [some p.title, p.patent_title] "" ++ " "
    ++ firstTruthyD [some p.abstract, p.patent_abstract] ""

/-- `viability_scoring.expiration_confidence_score`: confidence in
[0, 10] that the candidate is expired, from the filing date when known,
else the grant date (denominator 15 for design patents), else 2.0. -/
def expiration_confidence_score (p : NRecord) (asOf : YMD) : ℚ :=
  match isoDateOfOpt p.filing_date with
  | some filing =>
    let age : ℚ := max 0 ((daysBetween asOf filing : ℚ) / 365)
    roundQ3 (clamp10 ((age / 20) * 10))
  | none =>
    match isoDateOfOpt p.patent_date with
    | some grant =>
      let threshold : ℚ := if asciiLower (p.patent_type.getD "") = "design" then 15 else 20
      let age : ℚ := max 0 ((daysBetween asOf grant : ℚ) / 365)
      roundQ3 (clamp10 ((age / threshold) * 10))
    | none => 2

/-- Ordered market-domain taxonomy of
`viability_scoring.MARKET_DOMAIN_TAXONOMY`. -/
def MARKET_DOMAIN_TAXONOMY : List (String × List String) :=
  [("healthcare_wearables",
    ["patient", "vital", "temperature", "heart", "physiological", "biometric",
     "wearable", "monitoring", "medical"]),
   ("industrial_safety",
    ["gas", "toxic", "hazard", "osha", "industrial", "safety", "detector",
     "monitor", "compliance"]),
   ("environmental_monitoring",
    ["air", "water", "environment", "quality", "pollution", "climate",
     "portable", "sensor"]),
   ("precision_agriculture",
    ["soil", "moisture", "crop", "field", "agriculture", "irrigation", "farm", "ph"]),
   ("consumer_iot",
    ["wireless", "network", "mobile", "app", "connected", "smart", "remote"])]

/-- Demand terms of `viability_scoring.DEMAND_TERMS`. -/
def DEMAND_TERMS : List String :=
  ["automation", "real", "time", "safety", "health", "monitoring",
   "compliance", "efficiency", "predictive"]

/-- Complexity terms of `viability_scoring.COMPLEXITY_TERMS`. -/
def COMPLEXITY_TERMS : List String :=
  ["spectrometry", "chromatography", "calibration", "biochemical",
   "electrode", "multivariate", "algorithm", "multiplex"]

/-- Competition terms of `viability_scoring.COMPETITION_TERMS`. -/
def COMPETITION_TERMS : List String :=
  ["system", "method", "platform", "network", "module", "device"]

/-- Differentiation terms of `viability_scoring.DIFFERENTIATION_TERMS`. -/
def DIFFERENTIATION_TERMS : List String :=
  ["portable", "wireless", "integrated", "adaptive", "real", "time",
   "autonomous", "predictive"]

/-- Readiness terms of `viability_scoring.READINESS_TERMS`. -/
def READINESS_TERMS : List String :=
  ["prototype", "deployment", "production", "manufacturing", "kit",
   "portable", "apparatus"]

/-- First key of maximal count, as Python
`max(scores, key=scores.get)` (first maximum in iteration order). -/
def firstMaxKey : List (String × ℕ) → Option (String × ℕ) :=
  List.foldl
    (fun acc p =>
      match acc with
      | none => some p
      | some q => if q.2 < p.2 then some p else acc)
    none

/-- `viability_scoring.classify_market_domain`: count taxonomy term
hits in the token set; highest count wins (ties by taxonomy order);
zero hits fall back to "general_sensors". -/
def classify_market_domain (p : NRecord) : String × List (String × ℕ) :=
  let tokens := tokenize_text (compose_patent_text p)
  let scores := MARKET_DOMAIN_TAXONOMY.map
    (fun dm => (dm.1, dm.2.countP (fun term => tokens.contains term)))
  let best :=
    match firstMaxKey scores with
    | none => "general_sensors"
    | some kc => if kc.2 = 0 then "general_sensors" else kc.1
  (best, scores)

/-- `viability_scoring._component_score`:
`clamp(baseline + hits * scale)`. -/
def component_score (tokens positive_terms : List String) (baseline scale : ℚ) : ℚ :=
  clamp10 (baseline + (positive_terms.countP (fun t => tokens.contains t) : ℚ) * scale)

/-- Caller-supplied overrides for the five viability component
weights: only recognized keys replace defaults, as the
`used_weights.update({... if k in used_weights})` of the source. -/
structure ViabilityWeightOv where
  market_demand : Option ℚ := none
  build_feasibility : Option ℚ := none
  competition_headroom : Option ℚ := none
  differentiation_potential : Option ℚ := none
  commercial_readiness : Option ℚ := none

/-- The effective viability weights: defaults
0.28/0.22/0.18/0.18/0.14 with overrides applied. -/
structure ViabilityWeights where
  market_demand : ℚ
  build_feasibility : ℚ
  competition_headroom : ℚ
  differentiation_potential : ℚ
  commercial_readiness : ℚ

/-- Apply the overrides to
`DEFAULT_VIABILITY_COMPONENT_WEIGHTS`. -/
def applyViabilityOv (w : Option ViabilityWeightOv) : ViabilityWeights :=
  let ov := w.getD {}
  { market_demand := ov.market_demand.getD (28/100)
    build_feasibility := ov.build_feasibility.getD (22/100)
    competition_headroom := ov.competition_headroom.getD (18/100)
    differentiation_potential := ov.differentiation_potential.getD (18/100)
    commercial_readiness := ov.commercial_readiness.getD (14/100) }

/-- The five rounded viability components and the rounded, clamped
weighted total of the viability scorecard. -/
structure ViabilityComponents where
  market_demand : ℚ
  build_feasibility : ℚ
  competition_headroom : ℚ
  differentiation_potential : ℚ
  commercial_readiness : ℚ
  total : ℚ
deriving DecidableEq, Repr

/-- Result of `compute_viability_scorecard`: market domain, domain hit
counts, weights in use, and the component scorecard. -/
structure ViabilityResult where
  market_domain : String
  domain_hits : List (String × ℕ)
  weights : ViabilityWeights
  components : ViabilityComponents

/-- `viability_scoring.compute_viability_scorecard`: deterministic
viability components from keyword hits and the weighted total. -/
def compute_viability_scorecard (p : NRecord) (w : Option ViabilityWeightOv)
    (asOf : YMD) : ViabilityResult :=
  let used := applyViabilityOv w
  let tokens := tokenize_text (compose_patent_text p)
  let cls := classify_market_domain p
  let market_demand := component_score tokens DEMAND_TERMS (45/10) (8/10)
  let complexity_penalty := component_score tokens COMPLEXITY_TERMS 0 (9/10)
  let build_feasibility := clamp10 (88/10 - complexity_penalty)
  let competition_pressure := component_score tokens COMPETITION_TERMS 0 (7/10)
  let assignee := firstTruthyD [p.assignee_type] ""
  let individual_bonus : ℚ := if assignee ∈ ["4", "5", "14", "15"] then 8/10 else 0
  let competition_headroom := clamp10 (7 - competition_pressure + individual_bonus)
  let differentiation_potential := component_score tokens DIFFERENTIATION_TERMS (42/10) (7/10)
  let readiness_signal := component_score tokens READINESS_TERMS (38/10) (6/10)
  let expiration_signal := expiration_confidence_score p asOf
  let commercial_readiness := clamp10 (readiness_signal * (6/10) + expiration_signal * (4/10))
  let c : ViabilityComponents :=
    { market_demand := roundQ3 market_demand
      build_feasibility := roundQ3 build_feasibility
      competition_headroom := roundQ3 competition_headroom
      differentiation_potential := roundQ3 differentiation_potential
      commercial_readiness := roundQ3 commercial_readiness
      total := 0 }
  let total := c.market_demand * used.market_demand
    + c.build_feasibility * used.build_feasibility
    + c.competition_headroom * used.competition_headroom
    + c.differentiation_potential * used.differentiation_potential
    + c.commercial_readiness * used.commercial_readiness
  { market_domain := cls.1
    domain_hits := cls.2
    weights := used
    components := { c with total := roundQ3 (clamp10 total) } }

/-- An entry of the `application` field carrying an optional filing
date. -/
structure RawApp where
  filing_date : Option String := none
deriving DecidableEq, Repr

/-- Shape of the `application` field of a raw record: absent, a list
of entries, or a single entry. -/
inductive AppField where
  | missing : AppField
  | list : List RawApp → AppField
  | dict : RawApp → AppField
deriving DecidableEq, Repr

/-- An assignee entry carrying an optional assignee-type code. -/
structure RawAssignee where
  assignee_type : Option String := none
deriving DecidableEq, Repr

/-- A raw PatentsView record, restricted to the keys read by
`normalize_patent_record`.  Optional fields model absent keys or
`None` values. -/
structure RawRecord where
  patent_id : Option String := none
  patent_number : Option String := none
  patent_title : Option String := none
  title : Option String := none
  patent_abstract : Option String := none
  abstract : Option String := none
  patent_date : Option String := none
  filing_date : Option String := none
  application : AppField := AppField.missing
  assignee_type : Option String := none
  assignees : List RawAssignee := []
  link : Option String := none
  source_provider : Option String := none
  patent_type : Option String := none
  retrieval_pass_hits : Option (List String) := none
deriving DecidableEq, Repr

/-- `patent_discovery.normalize_patent_record`: normalize a raw
PatentsView record into the internal shape. -/
def normalize_patent_record (raw : RawRecord) : NRecord :=
  let pn := firstTruthyD [raw.patent_id, raw.patent_number] ""
  let titleS := firstTruthyD [raw.patent_title, raw.title] ""
  let abstractS := firstTruthyD [raw.patent_abstract, raw.abstract] ""
  let pd := if truthyO raw.patent_date then raw.patent_date else none
  let fd :=
    if truthyO raw.filing_date then raw.filing_date
    else
      match raw.application with
      | AppField.list (first :: _) => first.filing_date
      | AppField.dict d => d.filing_date
      | _ => raw.filing_date
  let at_ :=
    if truthyO raw.assignee_type then raw.assignee_type
    else
      match raw.assignees with
      | first :: _ => first.assignee_type
      | [] => raw.assignee_type
  let link :=
    if truthyO raw.link then raw.link.getD ""
    else if pn ≠ "" then "https://patents.google.com/patent/" ++ pn else ""
  { patent_number := pn
    title := titleS
    abstract := abstractS
    link := link
    patent_date := pd
    filing_date := fd
    assignee_type := at_
    source_provider := firstTruthyD [raw.source_provider] "patentsview_patentsearch"
    patent_type := raw.patent_type
    hits := raw.retrieval_pass_hits.getD [] }

/-- Rendering of an optional string inside a Python f-string: `None`
prints as "None". -/
def renderOpt : Option String → String
  | some s => s
  | none => "None"

/-- The deduplication key of a normalized record: the identifier, or
`title|filing-date` when the identifier is empty. -/
def dedupeKey (n : NRecord) : String :=
  if n.patent_number ≠ "" then n.patent_number
  else n.title ++ "|" ++ renderOpt n.filing_date

/-- Merge of a later occurrence into the stored record: accumulate the
pass name, and backfill a missing (falsy) abstract or filing date. -/
def mergeRec (r : NRecord) (passName : String) (n : NRecord) : NRecord :=
  { r with
    hits := if passName ∈ r.hits then r.hits else r.hits ++ [passName]
    abstract := if r.abstract = "" ∧ n.abstract ≠ "" then n.abstract else r.abstract
    filing_date :=
      if ¬truthyO r.filing_date ∧ truthyO n.filing_date then n.filing_date
      else r.filing_date }

/-- First occurrence of a key: keep the normalized fields and start
the pass-hit list. -/
def initRec (passName : String) (n : NRecord) : NRecord :=
  { n with hits := [passName] }

/-- One step of the deduplication fold over the insertion-ordered
dictionary. -/
def insertPair (acc : List (String × NRecord)) (passName : String)
    (raw : RawRecord) : List (String × NRecord) :=
  let n := normalize_patent_record raw
  let k := dedupeKey n
  if (acc.lookup k).isSome then
    acc.map (fun p => if p.1 = k then (p.1, mergeRec p.2 passName n) else p)
  else acc ++ [(k, initRec passName n)]

/-- The insertion-ordered dictionary built by
`_dedupe_and_normalize_records` before the final pass-hit
normalization. -/
def dedupeAssoc (pass_records : List (String × RawRecord)) : List (String × NRecord) :=
  pass_records.foldl (fun acc pr => insertPair acc pr.1 pr.2) []

/-- Final normalization of the accumulated pass hits:
`sorted(set(hits))`. -/
def finalizeRec (r : NRecord) : NRecord :=
  { r with hits := List.insertionSort strLeRel r.hits.dedup }

/-- `patent_discovery._dedupe_and_normalize_records`: normalize,
deduplicate by key with first-occurrence-wins backfill, and sort the
accumulated pass sets. -/
def dedupe_and_normalize_records (pass_records : List (String × RawRecord)) :
    List NRecord :=
  (dedupeAssoc pass_records).map (fun p => finalizeRec p.2)

/-- Keyword-expansion synonym table of
`patent_discovery.KEYWORD_EXPANSION_MAP`. -/
def KEYWORD_EXPANSION_MAP : List (String × List String) :=
  [("portable", ["mobile", "handheld", "wearable", "compact"]),
   ("sensor", ["detector", "monitor", "transducer", "probe"]),
   ("wireless", ["rf", "radio", "remote", "bluetooth"]),
   ("vital", ["physiological", "biometric", "health"]),
   ("water", ["aqueous", "h2o", "liquid"]),
   ("gas", ["vapor", "fume", "air"]),
   ("soil", ["agriculture", "crop", "field"]),
   ("temperature", ["thermal", "heat"]),
   ("monitor", ["tracking", "diagnostic", "measurement"]),
   ("device", ["apparatus", "instrument", "system"])]

/-- Add a cleaned term if new, as the `_add` closure of
`expand_keywords_for_v2`: the accumulated list doubles as the `seen`
set. -/
def addTerm (acc : List String) (term : String) : List String :=
  let clean := asciiLower (pyStrip term)
  if clean = "" ∨ clean ∈ acc then acc else acc ++ [clean]

/-- Process one keyword of `expand_keywords_for_v2`: the keyword, its
tokens, and their synonyms, in order. -/
def expandOneKeyword (acc : List String) (keyword : String) : List String :=
  let base := asciiLower (pyStrip keyword)
  if base = "" then acc
  else
    (tokenize_text base).foldl
      (fun a tok =>
        ((KEYWORD_EXPANSION_MAP.lookup tok).getD []).foldl addTerm (addTerm a tok))
      (addTerm acc base)

/-- Outer loop of `expand_keywords_for_v2` with the early break once
the cap is reached. -/
def expandGo (maxN : ℕ) : List String → List String → List String
  | acc, [] => acc
  | acc, kw :: rest =>
    let acc' := expandOneKeyword acc kw
    if maxN ≤ acc'.length then acc' else expandGo maxN acc' rest

/-- `patent_discovery.expand_keywords_for_v2`: deterministic synonym
expansion, first-seen-first-kept, truncated to
`max_expanded_keywords`. -/
def expand_keywords_for_v2 (keywords : List String) (maxN : ℕ) : List String :=
  (expandGo maxN [] keywords).take maxN

/-- Retrieval score weight overrides of
`search_config["retrieval_v2"]["score_weights"]`: only recognized keys
replace defaults. -/
structure RetrievalWeightOv where
  title_exact_match : Option ℚ := none
  query_coverage : Option ℚ := none
  semantic_similarity : Option ℚ := none
  expiration_confidence : Option ℚ := none
  pass_diversity : Option ℚ := none

/-- The effective retrieval score weights, default
0.24/0.20/0.30/0.16/0.10. -/
structure RetrievalWeights where
  title_exact_match : ℚ
  query_coverage : ℚ
  semantic_similarity : ℚ
  expiration_confidence : ℚ
  pass_diversity : ℚ

/-- Apply overrides to `DEFAULT_RETRIEVAL_SCORE_WEIGHTS`. -/
def applyRetrievalOv (w : Option RetrievalWeightOv) : RetrievalWeights :=
  let ov := w.getD {}
  { title_exact_match := ov.title_exact_match.getD (24/100)
    query_coverage := ov.query_coverage.getD (20/100)
    semantic_similarity := ov.semantic_similarity.getD (30/100)
    expiration_confidence := ov.expiration_confidence.getD (16/100)
    pass_diversity := ov.pass_diversity.getD (10/100) }

/-- Search configuration, restricted to the keys read by
`rerank_patent_candidates_v2`: the keyword intent list, the
`max_expanded_keywords` cap (`or 24` semantics), and optional score
weight overrides. -/
structure SearchCfg where
  keywords : List String := []
  max_expanded_keywords : Option ℕ := none
  score_weights : Option RetrievalWeightOv := none

/-- The `int(... or 24)` default for the expansion cap: absent or zero
falls back to 24. -/
def effectiveMaxExpanded (cfg : SearchCfg) : ℕ :=
  match cfg.max_expanded_keywords with
  | none => 24
  | some 0 => 24
  | some n => n

/-- The retrieval scorecard of one candidate: five rounded sub-scores,
the weights in use, and the rounded clamped total. -/
structure RetrievalScorecard where
  title_exact_match : ℚ
  query_coverage : ℚ
  semantic_similarity : ℚ
  expiration_confidence : ℚ
  pass_diversity : ℚ
  total : ℚ
deriving DecidableEq, Repr

/-- A reranked candidate: the record (with its pass hits filtered to
the recognized pass names) and its retrieval scorecard. -/
structure ScoredRec where
  record : NRecord
  scorecard : RetrievalScorecard
deriving DecidableEq, Repr

/-- The recognized retrieval pass names. -/
def PASS_NAMES : List String :=
  ["strict_intent", "expanded_synonyms", "title_priority", "broad_fallback", "single_pass"]

/-- Score one candidate inside `rerank_patent_candidates_v2`. -/
def scoreCandidate (logQ sqrtQ : ℚ → ℚ) (base_keywords : List String)
    (query_terms : List String) (query_text : String) (corpus_docs : List String)
    (w : RetrievalWeights) (asOf : YMD) (patent : NRecord) : ScoredRec :=
  let title := patent.title
  let abstract := patent.abstract
  let title_lower := asciiLower title
  let doc_text := title ++ " " ++ abstract
  let doc_tokens := tokenize_text doc_text
  let exact_hits := base_keywords.countP (fun kw => kw ≠ "" && pyIn kw title_lower)
  let title_exact_match :=
    clamp10 (((exact_hits : ℚ) / (max 1 base_keywords.length : ℚ)) * 10)
  let coverage := clamp10 (term_coverage query_terms doc_tokens * 10)
  let semantic :=
    clamp10 (tfidf_cosine_similarity logQ sqrtQ query_text doc_text corpus_docs * 10)
  let expiration_conf := expiration_confidence_score patent asOf
  let pass_hits := patent.hits.filter (fun h => PASS_NAMES.contains h)
  let pass_diversity := clamp10 (((pass_hits.length : ℚ) / 4) * 10)
  let total := title_exact_match * w.title_exact_match
    + coverage * w.query_coverage
    + semantic * w.semantic_similarity
    + expiration_conf * w.expiration_confidence
    + pass_diversity * w.pass_diversity
  { record := { patent with hits := pass_hits }
    scorecard :=
      { title_exact_match := roundQ3 title_exact_match
        query_coverage := roundQ3 coverage
        semantic_similarity := roundQ3 semantic
        expiration_confidence := roundQ3 expiration_conf
        pass_diversity := roundQ3 pass_diversity
        total := roundQ3 (clamp10 total) } }

/-- The sort key of the final sort: the tuple
`(total, patent_date or "", patent_number or "")`. -/
def sortKey (s : ScoredRec) : ℚ × String × String :=
  (s.scorecard.total, s.record.patent_date.getD "", s.record.patent_number)

/-- Lexicographic comparison of sort keys, as Python tuple ≤. -/
def keyLeB (a b : ℚ × String × String) : Bool :=
  decide (a.1 < b.1)
    || (decide (a.1 = b.1)
      && (strLt a.2.1 b.2.1 || (a.2.1 == b.2.1 && strLe a.2.2 b.2.2)))

/-- The descending sort order used by `ranked.sort(key=..., reverse=True)`:
`a` precedes `b` when the key of `b` is lexicographically ≤ the key of
`a`. -/
def rankGE (a b : ScoredRec) : Prop := keyLeB (sortKey b) (sortKey a) = true

instance : DecidableRel rankGE := fun _ _ => decEq _ _

/-- The `ranked` list of `rerank_patent_candidates_v2` before the
final sort: every candidate scored against the shared query data.
`logQ` and `sqrtQ` stand for `math.log` and `math.sqrt`; `asOf` is the
`as_of_date or date.today()` value. -/
def scoredCandidates (logQ sqrtQ : ℚ → ℚ) (candidates : List NRecord)
    (cfg : SearchCfg) (asOf : YMD) : List ScoredRec :=
  let base_keywords := (cfg.keywords.map (fun k => pyStrip (asciiLower k))).filter
    (fun k => k ≠ "")
  let expanded := expand_keywords_for_v2 base_keywords (effectiveMaxExpanded cfg)
  let query_text := joinSpace expanded
  let corpus_docs := candidates.map (fun pat => pat.title ++ " " ++ pat.abstract)
  let w := applyRetrievalOv cfg.score_weights
  let query_terms := tokenize_text (joinSpace base_keywords)
  candidates.map
    (scoreCandidate logQ sqrtQ base_keywords query_terms query_text corpus_docs w asOf)

/-- `patent_discovery.rerank_patent_candidates_v2`: score every
candidate and sort by descending `(total, grant date, identifier)`. -/
def rerank_patent_candidates_v2 (logQ sqrtQ : ℚ → ℚ) (candidates : List NRecord)
    (cfg : SearchCfg) (asOf : YMD) : List ScoredRec :=
  if candidates.isEmpty then []
  else List.insertionSort rankGE (scoredCandidates logQ sqrtQ candidates cfg asOf)

/-- Industry benchmark of `financial_mcp_stack.IndustryBenchmark`. -/
structure IndustryBenchmark where
  industry_name : String := ""
  number_of_firms : ℕ := 0
  beta : ℚ := 0
  cost_of_capital : ℚ := 0
  tax_rate : ℚ := 0
  operating_margin : ℚ := 0
  net_margin : ℚ := 0
  ev_to_sales : ℚ := 0
  price_to_sales : ℚ := 0
  non_cash_working_capital_to_revenue : ℚ := 0
  net_capex_to_revenue : ℚ := 0
  sales_to_invested_capital : ℚ := 0
  market_cap_musd : ℚ := 0
  enterprise_value_musd : ℚ := 0
  revenues_musd : ℚ := 0

/-- Macro signals of `financial_mcp_stack.MacroSignals`. -/
structure MacroSignals where
  as_of : String := ""
  risk_free_rate : ℚ := 0
  inflation_rate : ℚ := 0
  producer_price_inflation : ℚ := 0
  manufacturing_wage_growth : ℚ := 0
  manufacturing_capacity_utilization : ℚ := 0
  real_gdp_growth : ℚ := 0

/-- Manufacturing profile of
`patent_analysis_framework.ManufacturingProfile`. -/
structure ManufacturingProfile where
  required_materials : List String := []
  required_equipment : List String := []
  process_complexity : String := "medium"
  trl_estimate : ℤ := 6
  capex_low : ℚ := 0
  capex_high : ℚ := 0
  opex_annual_change : ℚ := 0
  production_type : String := "batch"
  modernization_timeline_months : ℤ := 12
  critical_bottlenecks : List String := []
  benchmark_industry : String := ""
  benchmark_market_revenues_musd : ℚ := 0
  benchmark_cost_of_capital : ℚ := 0

/-- Discounted sum `sum(cf / (1 + rate) ** i)`, shared by the NPV of
the IRR solver and of the scenario model. -/
def discountedSum (rate : ℚ) : List ℚ → ℕ → ℚ
  | [], _ => 0
  | cf :: cfs, i => cf / qpow (1 + rate) i + discountedSum rate cfs (i + 1)

/-- NPV of a cash-flow list at a rate, from index 0. -/
def npvAtRate (rate : ℚ) (cash_flows : List ℚ) : ℚ := discountedSum rate cash_flows 0

/-- The bisection loop of `_estimate_internal_rate_percent`: at most
`fuel` iterations, early exit when `|NPV| < 1e-6`. -/
def irrBisect (cash_flows : List ℚ) : ℕ → ℚ → ℚ → ℚ → ℚ → ℚ
  | 0, low, high, _, _ => (low + high) / 2 * 100
  | fuel + 1, low, high, low_npv, high_npv =>
    let mid := (low + high) / 2
    let mid_npv := npvAtRate mid cash_flows
    if |mid_npv| < 1 / 1000000 then mid * 100
    else if low_npv * mid_npv < 0 then irrBisect cash_flows fuel low mid low_npv mid_npv
    else irrBisect cash_flows fuel mid high mid_npv high_npv

/-- `patent_analysis_framework._estimate_internal_rate_percent`: IRR
via bounded bisection over [-95%, 200%], 0 whenever the sign pattern
admits no root or the bounds do not bracket one. -/
def estimate_internal_rate_percent (cash_flows : List ℚ) : ℚ :=
  if cash_flows.length < 2 then 0
  else if 0 ≤ cash_flows.headD 0 then 0
  else if cash_flows.tail.all (fun cf => cf ≤ 0) then 0
  else
    let low : ℚ := -(95/100)
    let high : ℚ := 2
    let low_npv := npvAtRate low cash_flows
    let high_npv := npvAtRate high cash_flows
    if 0 < low_npv * high_npv then 0
    else irrBisect cash_flows 80 low high low_npv high_npv

/-- The context shared by all scenario evaluations of one
`estimate_financial_metrics` call: the quantities computed before the
`scenario_cash_flow` closure is defined. -/
structure ScenarioCtx where
  years : ℕ
  capex_mid : ℚ
  maintenance_capex_rate : ℚ
  tax_rate : ℚ
  inflation_rate : ℚ
  sales_to_capital : ℚ
  working_capital_ratio : ℚ
  annual_opex_change : ℚ
  year1_revenue : ℚ
  annual_cost_savings : ℚ
  initial_working_capital : ℚ

/-- The year loop of `scenario_cash_flow`, producing the free cash
flows of years `year, year+1, …` while `fuel` lasts.  `prev` is the
previous year's revenue, `ii` the initial investment. -/
def scenarioYears (ctx : ScenarioCtx) (growth_rate operating_margin savings_multiplier
    revenue_multiplier ii : ℚ) : ℕ → ℕ → ℚ → List ℚ
  | 0, _, _ => []
  | fuel + 1, year, prev =>
    let adoption := npClip (35/100 + (85/1000) * (year : ℚ)) (25/100) 1
    let revenue := ctx.year1_revenue * revenue_multiplier
      * qpow (1 + growth_rate) (year - 1) * adoption
    let savings := ctx.annual_cost_savings * savings_multiplier
      * qpow (1 + growth_rate * (35/100)) (year - 1)
    let opex_drag := ctx.annual_opex_change * qpow (1 + ctx.inflation_rate) (year - 1)
    let ebit := revenue * operating_margin + savings - opex_drag
    let taxes := max 0 ebit * ctx.tax_rate
    let nopat := ebit - taxes
    let delta_revenue := max 0 (revenue - prev)
    let growth_capex := delta_revenue / ctx.sales_to_capital
    let maintenance_capex := ii * ctx.maintenance_capex_rate
    let delta_working_capital := ctx.working_capital_ratio * delta_revenue
    let depreciation := if year ≤ 7 then ii / 7 else 0
    let free_cash_flow := nopat + depreciation - growth_capex
      - maintenance_capex - delta_working_capital
    free_cash_flow ::
      scenarioYears ctx growth_rate operating_margin savings_multiplier
        revenue_multiplier ii fuel (year + 1) revenue

/-- `scenario_cash_flow` of `estimate_financial_metrics`: the NPV and
the cash-flow list (year 0 holds the negative initial investment). -/
def scenario_cash_flow (ctx : ScenarioCtx) (growth_rate operating_margin discount_rate
    capex_multiplier savings_multiplier revenue_multiplier : ℚ) : ℚ × List ℚ :=
  let initial_investment := ctx.capex_mid * capex_multiplier + ctx.initial_working_capital
  let cash_flows := (-initial_investment) ::
    scenarioYears ctx growth_rate operating_margin savings_multiplier
      revenue_multiplier initial_investment ctx.years 1 0
  (npvAtRate discount_rate cash_flows, cash_flows)

/-- The base-scenario inputs derived by `estimate_financial_metrics`
before any scenario runs: the scenario context together with the base
growth rate, operating margin and discount rate, plus the remaining
quantities reported in the output. -/
structure FinInputs where
  ctx : ScenarioCtx
  growth : ℚ
  margin : ℚ
  discount : ℚ
  serviceable_market : ℚ
  annual_cost_savings : ℚ
  annual_revenue_uplift : ℚ
  benchmark : IndustryBenchmark

/-- The body of `estimate_financial_metrics` down to
`initial_working_capital`, mapping the candidate text, the
manufacturing profile, the benchmark and the macro signals into the
scenario inputs.  `titleL` and `abstractL` are the lowered title and
abstract. -/
def mkFinInputs (getBenchmark : String → IndustryBenchmark) (titleL abstractL : String)
    (profile : ManufacturingProfile) (ms : MacroSignals) : FinInputs :=
  let combined := titleL ++ " " ++ abstractL
  let benchmark := getBenchmark
    (if profile.benchmark_industry ≠ "" then profile.benchmark_industry
     else "Total  Market (without financials)")
  let years : ℕ := 10
  let capex_mid := (profile.capex_low + profile.capex_high) / 2
  let discount_rate_base := npClip
    (benchmark.cost_of_capital * (75/100) + ms.risk_free_rate * (25/100)) (6/100) (20/100)
  let tax_rate := npClip benchmark.tax_rate (10/100) (35/100)
  let operating_margin_pre := npClip benchmark.operating_margin (5/100) (40/100)
  let innovation_margin_uplift := (2/100 : ℚ)
    + (if pyIn "automation" combined || pyIn "efficiency" combined
        || pyIn "predictive" combined then 1/100 else 0)
    + (if pyIn "premium" combined || pyIn "accuracy" combined
        || pyIn "quality" combined then 1/100 else 0)
  let operating_margin_base := npClip (operating_margin_pre + innovation_margin_uplift)
    (6/100) (50/100)
  let market_growth_base := npClip
    ((35/100) * ms.real_gdp_growth + (25/100) * ms.inflation_rate
      + (40/100) * max benchmark.net_capex_to_revenue (1/100)) (1/100) (16/100)
  let sales_to_capital := npClip benchmark.sales_to_invested_capital (9/10) (45/10)
  let working_capital_ratio := npClip benchmark.non_cash_working_capital_to_revenue
    (2/100) (30/100)
  let market_size_total := max (benchmark.revenues_musd * 1000000) 250000000
  let serviceable_share := npClip
    ((8/10000) + (6/10000) * (profile.required_equipment.length : ℚ)
      + (4/10000) * (profile.required_materials.length : ℚ)
      + (if pyIn "wireless" combined || pyIn "sensor" combined then 15/10000 else 0)
      + (if pyIn "medical" combined || pyIn "health" combined then 10/10000 else 0))
    (1/1000) (4/100)
  let serviceable_market := market_size_total * serviceable_share
  let revenue_capacity_year1 := capex_mid * sales_to_capital
  let year1_revenue := npClip
    (min (serviceable_market * (18/100)) (revenue_capacity_year1 * (110/100)))
    (capex_mid * (40/100)) serviceable_market
  let process_or_method := pyIn "method" combined || pyIn "process" combined
  let annual_cost_savings := year1_revenue * (if process_or_method then 20/100 else 10/100)
  let annual_revenue_uplift := year1_revenue * (if ¬process_or_method then 18/100 else 10/100)
  let initial_working_capital := working_capital_ratio * year1_revenue * (1/2)
  { ctx :=
      { years := years
        capex_mid := capex_mid
        maintenance_capex_rate := 2/100
        tax_rate := tax_rate
        inflation_rate := ms.inflation_rate
        sales_to_capital := sales_to_capital
        working_capital_ratio := working_capital_ratio
        annual_opex_change := profile.opex_annual_change
        year1_revenue := year1_revenue
        annual_cost_savings := annual_cost_savings
        initial_working_capital := initial_working_capital }
    growth := market_growth_base
    margin := operating_margin_base
    discount := discount_rate_base
    serviceable_market := serviceable_market
    annual_cost_savings := annual_cost_savings
    annual_revenue_uplift := annual_revenue_uplift
    benchmark := benchmark }

/-- One Monte Carlo simulation of `estimate_financial_metrics`: six
individually clamped normal perturbations (draws `6k` to `6k+5` of the
seeded stream) fed into `scenario_cash_flow`. -/
def mcSimNpv (z : ℕ → ℕ → ℚ) (seed : ℕ) (fi : FinInputs) (k : ℕ) : ℚ :=
  let sampled_growth := npClip (fi.growth + (15/1000) * z seed (6 * k)) 0 (25/100)
  let sampled_margin := npClip (fi.margin + (25/1000) * z seed (6 * k + 1)) (3/100) (60/100)
  let sampled_discount := npClip (fi.discount + (12/1000) * z seed (6 * k + 2))
    (5/100) (30/100)
  let sampled_capex_mult := npClip (1 + (10/100) * z seed (6 * k + 3)) (75/100) (135/100)
  let sampled_savings_mult := npClip (1 + (12/100) * z seed (6 * k + 4)) (65/100) (140/100)
  let sampled_revenue_mult := npClip (1 + (12/100) * z seed (6 * k + 5)) (65/100) (145/100)
  (scenario_cash_flow fi.ctx sampled_growth sampled_margin sampled_discount
    sampled_capex_mult sampled_savings_mult sampled_revenue_mult).1

/-- The 200 Monte Carlo NPVs of one call, in simulation order. -/
def mcNpvs (z : ℕ → ℕ → ℚ) (seed : ℕ) (fi : FinInputs) : List ℚ :=
  (List.range 200).map (mcSimNpv z seed fi)

/-- `np.percentile(xs, q)` with the default linear interpolation:
sort ascending and interpolate at position `(n-1)·q/100`. -/
def npPercentile (q : ℚ) (xs : List ℚ) : ℚ :=
  let s := List.insertionSort (fun a b : ℚ => a ≤ b) xs
  if s.isEmpty then 0
  else
    let pos : ℚ := ((s.length : ℚ) - 1) * q / 100
    let i : ℕ := pos.floor.toNat
    let lo := s.getD i 0
    let hi := s.getD (i + 1) lo
    lo + (pos - (i : ℚ)) * (hi - lo)

/-- The payback loop over `base_cash_flows[1:]`: the first year index
whose cumulative cash flow added to year 0 is non-negative, else the
999-year sentinel. -/
def paybackGo (cf0 : ℚ) : ℚ → ℕ → List ℚ → ℚ
  | _, _, [] => 999
  | cumulative, idx, cf :: cfs =>
    let c := cumulative + cf
    if 0 ≤ c + cf0 then (idx : ℚ) else paybackGo cf0 c (idx + 1) cfs

/-- Payback period in years of a cash-flow list. -/
def paybackYears : List ℚ → ℚ
  | [] => 999
  | cf0 :: rest => paybackGo cf0 0 1 rest

/-- The Monte Carlo seed:
`sum(ord(ch) for ch in patent_number) + years`. -/
def mcSeed (patent_number : String) : ℕ := ordSum patent_number + 10

/-- Financial metrics of
`patent_analysis_framework.FinancialMetrics`. -/
structure FinancialMetricsQ where
  npv_base : ℚ
  npv_optimistic : ℚ
  npv_pessimistic : ℚ
  payback_period_years : ℚ
  irr_percent : ℚ
  annual_cost_savings : ℚ
  annual_revenue_uplift : ℚ
  valuation_low : ℚ
  valuation_mid : ℚ
  valuation_high : ℚ
  market_size_serviceable : ℚ
  product_value_estimate : ℚ
  risk_adjusted_npv_p10 : ℚ
  risk_adjusted_npv_p90 : ℚ

/-- `patent_analysis_framework.estimate_financial_metrics` on the
scenario inputs: DCF scenarios, deterministic Monte Carlo envelope,
payback, IRR and triangulated valuation.  `z` is the seeded
standard-normal stream of the run, `seed` the Monte Carlo seed. -/
def estimateFromInputs (z : ℕ → ℕ → ℚ) (seed : ℕ) (fi : FinInputs) : FinancialMetricsQ :=
  let base := scenario_cash_flow fi.ctx fi.growth fi.margin fi.discount 1 1 1
  let npv_base := base.1
  let base_cash_flows := base.2
  let npv_optimistic := (scenario_cash_flow fi.ctx
    (min (22/100) (fi.growth * (130/100)))
    (min (58/100) (fi.margin + 3/100))
    (max (55/1000) (fi.discount - 15/1000))
    (88/100) (120/100) (118/100)).1
  let npv_pessimistic := (scenario_cash_flow fi.ctx
    (max (3/1000) (fi.growth * (60/100)))
    (max (3/100) (fi.margin - 4/100))
    (min (26/100) (fi.discount + 2/100))
    (120/100) (80/100) (82/100)).1
  let mc := mcNpvs z seed fi
  let p10_npv := npPercentile 10 mc
  let p90_npv := npPercentile 90 mc
  let payback_years := paybackYears base_cash_flows
  let irr_percent := max (-95) (min 300 (estimate_internal_rate_percent base_cash_flows))
  let terminal_revenue_year5 := fi.ctx.year1_revenue * qpow (1 + fi.growth) 4
  let product_value_estimate := terminal_revenue_year5
    * npClip fi.benchmark.ev_to_sales (4/10) 10
  let cost_approach_value := fi.ctx.capex_mid * (125/100)
  let income_approach_value := max npv_base 0
  let valuation_mid := max 0
    ((55/100) * income_approach_value + (30/100) * product_value_estimate
      + (15/100) * cost_approach_value)
  let valuation_low := max 0
    (min npv_pessimistic (min p10_npv (valuation_mid * (65/100))))
  let valuation_high := max npv_optimistic
    (max p90_npv (valuation_mid * (135/100)))
  { npv_base := npv_base
    npv_optimistic := npv_optimistic
    npv_pessimistic := npv_pessimistic
    payback_period_years := payback_years
    irr_percent := irr_percent
    annual_cost_savings := fi.annual_cost_savings
    annual_revenue_uplift := fi.annual_revenue_uplift
    valuation_low := valuation_low
    valuation_mid := valuation_mid
    valuation_high := valuation_high
    market_size_serviceable := fi.serviceable_market
    product_value_estimate := product_value_estimate
    risk_adjusted_npv_p10 := p10_npv
    risk_adjusted_npv_p90 := p90_npv }

/-- `patent_analysis_framework.estimate_financial_metrics`: the full
call on a candidate record, with the benchmark lookup injected as
`getBenchmark` and the run's seeded normal stream as `z`. -/
def estimate_financial_metrics (z : ℕ → ℕ → ℚ) (getBenchmark : String → IndustryBenchmark)
    (patent : NRecord) (profile : ManufacturingProfile) (ms : MacroSignals) :
    FinancialMetricsQ :=
  estimateFromInputs z (mcSeed patent.patent_number)
    (mkFinInputs getBenchmark (asciiLower patent.title) (asciiLower patent.abstract)
      profile ms)

/-- Technical score of `patent_analysis_framework.TechnicalScore`. -/
structure TechnicalScore where
  scientific_robustness : ℚ := 0
  manufacturing_feasibility_current : ℚ := 0
  modernization_potential : ℚ := 0
  technical_implementation_risk_inverted : ℚ := 0

/-- Strategic assessment of
`patent_analysis_framework.StrategicAssessment`, restricted to the
fields read by `compute_integrated_score`. -/
structure StrategicAssessment where
  strategic_fit_score : ℚ := 0
  competitive_advantage_potential : ℚ := 0
  market_size_opportunity : String := "medium"
  legal_ip_risk : String := "low"
  regulatory_risk : String := "low"
  esg_sustainability_benefit : String := "low"
  recommendation_tier : ℤ := 3

/-- Analysis result of
`patent_analysis_framework.PatentAnalysisResult`, restricted to the
fields read by `compute_integrated_score`. -/
structure PatentAnalysisResultQ where
  technical_score : Option TechnicalScore := none
  manufacturing_profile : Option ManufacturingProfile := none
  financial_metrics : Option FinancialMetricsQ := none
  strategic_assessment : Option StrategicAssessment := none

/-- `np.sign` on rationals. -/
def qsign (x : ℚ) : ℚ := if 0 < x then 1 else if x < 0 then -1 else 0

/-- `patent_analysis_framework.compute_integrated_score`: the weighted
integrated score and the confidence level, with `np.log1p` supplied as
`log1p`.  Returns `(0, 0.3)` when any upstream artifact is missing. -/
def compute_integrated_score (log1p : ℚ → ℚ) (result : PatentAnalysisResultQ) : ℚ × ℚ :=
  match result.technical_score, result.manufacturing_profile,
      result.financial_metrics, result.strategic_assessment with
  | some ts, some _, some fm, some sa =>
    let financial_attractiveness := npClip
      (5 + qsign fm.npv_base * log1p (|fm.npv_base| / 1000000) * 2) 0 10
    let legal_risk_inverted : ℚ := if sa.legal_ip_risk = "low" then 10 else 5
    let esg : ℚ := if sa.esg_sustainability_benefit = "high" then 9
      else if sa.esg_sustainability_benefit = "medium" then 6 else 3
    let integrated_score := ts.scientific_robustness * (15/100)
      + ts.manufacturing_feasibility_current * (20/100)
      + ts.modernization_potential * (15/100)
      + sa.strategic_fit_score * (20/100)
      + financial_attractiveness * (20/100)
      + legal_risk_inverted * (5/100)
      + esg * (5/100)
    let npv_spread := max 1 |fm.risk_adjusted_npv_p90 - fm.risk_adjusted_npv_p10|
    let spread_ratio := npv_spread / max 1 |fm.npv_base|
    let confidence_level := npClip (88/100 - min (45/100) (spread_ratio * (18/100)))
      (45/100) (92/100)
    (npClip integrated_score 0 10, confidence_level)
  | _, _, _, _ => (0, 3/10)


/-! ### Basic bound lemmas -/

theorem clamp10_nonneg (x : ℚ) : 0 ≤ clamp10 x := le_max_left 0 _

theorem clamp10_le_ten (x : ℚ) : clamp10 x ≤ 10 := by
  unfold clamp10 clamp
  exact max_le (by norm_num) (min_le_left _ _)

theorem roundQ3_nonneg (q : ℚ) (hq : 0 ≤ q) : 0 ≤ roundQ3 q := by
  unfold roundQ3
  dsimp only
  have h0 : (0 : ℤ) ≤ ⌊q * 1000⌋ := by
    have : (0 : ℚ) ≤ q * 1000 := by positivity
    exact Int.floor_nonneg.mpr this
  have h0q : (0 : ℚ) ≤ (⌊q * 1000⌋ : ℚ) := by exact_mod_cast h0
  split
  · positivity
  · split
    · positivity
    · split
      · positivity
      · positivity

theorem roundQ3_le_ten (q : ℚ) (hq : q ≤ 10) : roundQ3 q ≤ 10 := by
  unfold roundQ3
  dsimp only
  have hf : (⌊q * 1000⌋ : ℚ) ≤ 10000 := by
    have h1 : (⌊q * 1000⌋ : ℚ) ≤ q * 1000 := Int.floor_le _
    linarith
  have hfrac : ∀ c : ℚ, (1/2 : ℚ) ≤ q * 1000 - (⌊q * 1000⌋ : ℚ) →
      ((⌊q * 1000⌋ : ℚ) + 1) / 1000 ≤ 10 := by
    intro _ h
    have : (⌊q * 1000⌋ : ℚ) ≤ 10000 - 1/2 := by linarith
    have hz : ⌊q * 1000⌋ ≤ 9999 := by
      have := Int.lt_iff_add_one_le.mp (show ⌊q * 1000⌋ < 10000 by exact_mod_cast
        (show (⌊q * 1000⌋ : ℚ) < 10000 by linarith))
      omega
    have : (⌊q * 1000⌋ : ℚ) ≤ 9999 := by exact_mod_cast hz
    linarith
  split
  · linarith
  · split
    · exact hfrac 0 (by linarith)
    · split
      · linarith
      · exact hfrac 0 (by linarith)

theorem roundQ3_mem (q : ℚ) (h0 : 0 ≤ q) (h10 : q ≤ 10) :
    0 ≤ roundQ3 q ∧ roundQ3 q ≤ 10 :=
  ⟨roundQ3_nonneg q h0, roundQ3_le_ten q h10⟩

/-- Bound shared by every rounded clamped score. -/
theorem roundQ3_clamp10_mem (x : ℚ) : 0 ≤ roundQ3 (clamp10 x) ∧ roundQ3 (clamp10 x) ≤ 10 :=
  roundQ3_mem _ (clamp10_nonneg x) (clamp10_le_ten x)

theorem expiration_confidence_score_mem (p : NRecord) (asOf : YMD) :
    0 ≤ expiration_confidence_score p asOf ∧ expiration_confidence_score p asOf ≤ 10 := by
  unfold expiration_confidence_score
  split
  · exact roundQ3_clamp10_mem _
  · split
    · exact roundQ3_clamp10_mem _
    · norm_num

theorem component_score_mem (tokens terms : List String) (b sc : ℚ) :
    0 ≤ component_score tokens terms b sc ∧ component_score tokens terms b sc ≤ 10 :=
  ⟨clamp10_nonneg _, clamp10_le_ten _⟩

/-- A placeholder scored record used only as the `List.getD` default. -/
def dummyScored : ScoredRec :=
  { record := {}
    scorecard :=
      { title_exact_match := 0, query_coverage := 0, semantic_similarity := 0
        expiration_confidence := 0, pass_diversity := 0, total := 0 } }

/-- Bounds of the five viability components and total of one
scorecard. -/
def viabilityInBounds (c : ViabilityComponents) : Prop :=
  (0 ≤ c.market_demand ∧ c.market_demand ≤ 10)
  ∧ (0 ≤ c.build_feasibility ∧ c.build_feasibility ≤ 10)
  ∧ (0 ≤ c.competition_headroom ∧ c.competition_headroom ≤ 10)
  ∧ (0 ≤ c.differentiation_potential ∧ c.differentiation_potential ≤ 10)
  ∧ (0 ≤ c.commercial_readiness ∧ c.commercial_readiness ≤ 10)
  ∧ (0 ≤ c.total ∧ c.total ≤ 10)

/-- Bounds of the five retrieval sub-scores and total of one
scorecard. -/
def retrievalInBounds (c : RetrievalScorecard) : Prop :=
  (0 ≤ c.title_exact_match ∧ c.title_exact_match ≤ 10)
  ∧ (0 ≤ c.query_coverage ∧ c.query_coverage ≤ 10)
  ∧ (0 ≤ c.semantic_similarity ∧ c.semantic_similarity ≤ 10)
  ∧ (0 ≤ c.expiration_confidence ∧ c.expiration_confidence ≤ 10)
  ∧ (0 ≤ c.pass_diversity ∧ c.pass_diversity ≤ 10)
  ∧ (0 ≤ c.total ∧ c.total ≤ 10)

theorem scoreCandidate_bounds (logQ sqrtQ : ℚ → ℚ) (bk qt : List String) (q : String)
    (cd : List String) (w : RetrievalWeights) (asOf : YMD) (p : NRecord) :
    retrievalInBounds (scoreCandidate logQ sqrtQ bk qt q cd w asOf p).scorecard := by
  unfold scoreCandidate retrievalInBounds
  refine ⟨roundQ3_clamp10_mem _, roundQ3_clamp10_mem _, roundQ3_clamp10_mem _, ?_,
    roundQ3_clamp10_mem _, roundQ3_clamp10_mem _⟩
  have h := expiration_confidence_score_mem p asOf
  exact roundQ3_mem _ h.1 h.2

/-- C8 — all component scores stay in [0, 10] for arbitrary input:
the five viability components and the viability total computed by
`compute_viability_scorecard`, and the five retrieval sub-scores and
the retrieval total attached by `rerank_patent_candidates_v2`, for
every candidate record (arbitrary, possibly empty or non-ASCII text),
every weight override, every as-of date, and every value of the
transcendental `log`/`sqrt` parameters. -/
theorem viability_and_retrieval_scores_in_bounds :
    (∀ (p : NRecord) (w : Option ViabilityWeightOv) (asOf : YMD),
      viabilityInBounds (compute_viability_scorecard p w asOf).components)
    ∧ (∀ (logQ sqrtQ : ℚ → ℚ) (candidates : List NRecord) (cfg : SearchCfg) (asOf : YMD)
        (i : ℕ), i < (rerank_patent_candidates_v2 logQ sqrtQ candidates cfg asOf).length →
      retrievalInBounds
        ((rerank_patent_candidates_v2 logQ sqrtQ candidates cfg asOf).getD i
          dummyScored).scorecard) := by
  constructor
  · intro p w asOf
    unfold compute_viability_scorecard viabilityInBounds
    refine ⟨?_, ?_, ?_, ?_, ?_, roundQ3_clamp10_mem _⟩
    · exact roundQ3_mem _ (component_score_mem _ _ _ _).1 (component_score_mem _ _ _ _).2
    · exact roundQ3_clamp10_mem _
    · exact roundQ3_clamp10_mem _
    · exact roundQ3_mem _ (component_score_mem _ _ _ _).1 (component_score_mem _ _ _ _).2
    · exact roundQ3_clamp10_mem _
  · intro logQ sqrtQ candidates cfg asOf i hi
    have hall : ∀ s ∈ scoredCandidates logQ sqrtQ candidates cfg asOf,
        retrievalInBounds s.scorecard := by
      intro s hs
      unfold scoredCandidates at hs
      obtain ⟨p, _, hp⟩ := List.mem_map.mp hs
      rw [← hp]
      exact scoreCandidate_bounds _ _ _ _ _ _ _ _ _
    have key : ∀ (L : List ScoredRec),
        L = List.insertionSort rankGE (scoredCandidates logQ sqrtQ candidates cfg asOf) →
        i < L.length → retrievalInBounds (L.getD i dummyScored).scorecard := by
      intro L hL hiL
      have hmem : L.getD i dummyScored ∈ L := by
        rw [List.getD_eq_getElem?_getD, List.getElem?_eq_getElem hiL]
        exact List.getElem_mem hiL
      exact hall _ ((List.perm_insertionSort rankGE _).subset (hL ▸ hmem))
    unfold rerank_patent_candidates_v2 at hi ⊢
    by_cases hc : candidates.isEmpty
    · simp [hc] at hi
    · simp only [hc, if_false, Bool.false_eq_true] at hi ⊢
      exact key _ rfl hi



/-! ### C10 — integrated-score confidence bounds -/

/-- C10 — whenever all four upstream artifacts are present, the
confidence level of `compute_integrated_score` lies in [0.45, 0.88]
(so the 0.92 upper clamp is never attained), the subtracted spread
term being non-negative; when any artifact is missing the function
returns the fixed pair (0.0, 0.3).  Holds for every value of the
`np.log1p` parameter. -/
theorem compute_integrated_score_confidence (log1p : ℚ → ℚ) (r : PatentAnalysisResultQ) :
    ((r.technical_score = none ∨ r.manufacturing_profile = none
        ∨ r.financial_metrics = none ∨ r.strategic_assessment = none) →
      compute_integrated_score log1p r = (0, 3/10))
    ∧ (∀ ts mp fm sa, r.technical_score = some ts → r.manufacturing_profile = some mp →
        r.financial_metrics = some fm → r.strategic_assessment = some sa →
        0 ≤ min (45/100 : ℚ)
          ((max 1 |fm.risk_adjusted_npv_p90 - fm.risk_adjusted_npv_p10|
            / max 1 |fm.npv_base|) * (18/100))
        ∧ 45/100 ≤ (compute_integrated_score log1p r).2
        ∧ (compute_integrated_score log1p r).2 ≤ 88/100) := by
  obtain ⟨ots, omp, ofm, osa⟩ := r
  constructor
  · intro h
    rcases ots with _ | ts <;> rcases omp with _ | mp <;> rcases ofm with _ | fm <;>
      rcases osa with _ | sa <;> first | rfl | simp_all
  · intro ts mp fm sa hts hmp hfm hsa
    cases hts; cases hmp; cases hfm; cases hsa
    have hratio : (0 : ℚ) ≤ max 1 |fm.risk_adjusted_npv_p90 - fm.risk_adjusted_npv_p10|
        / max 1 |fm.npv_base| :=
      div_nonneg (le_trans zero_le_one (le_max_left 1 _))
        (le_trans zero_le_one (le_max_left 1 _))
    have hs0 : (0 : ℚ) ≤ min (45/100 : ℚ)
        ((max 1 |fm.risk_adjusted_npv_p90 - fm.risk_adjusted_npv_p10|
          / max 1 |fm.npv_base|) * (18/100)) :=
      le_min (by norm_num) (by positivity)
    refine ⟨hs0, ?_, ?_⟩
    · exact le_min (le_max_right _ _) (by norm_num)
    · exact le_trans (min_le_left _ _) (max_le (by linarith) (by norm_num))

/-- Technical-score fixture for the confidence witness. -/
def wTS : TechnicalScore :=
  { scientific_robustness := 5, manufacturing_feasibility_current := 5,
    modernization_potential := 5, technical_implementation_risk_inverted := 5 }

/-- Financial-metrics fixture for the confidence witness. -/
def wFM : FinancialMetricsQ :=
  { npv_base := 2000000, npv_optimistic := 3000000, npv_pessimistic := 1000000,
    payback_period_years := 3, irr_percent := 12, annual_cost_savings := 100000,
    annual_revenue_uplift := 100000, valuation_low := 1000000,
    valuation_mid := 2000000, valuation_high := 3000000,
    market_size_serviceable := 100000000, product_value_estimate := 2500000,
    risk_adjusted_npv_p10 := 1500000, risk_adjusted_npv_p90 := 2500000 }

/-- All-artifacts-present fixture for the confidence witness. -/
def resAll : PatentAnalysisResultQ :=
  { technical_score := some wTS
    manufacturing_profile := some {}
    financial_metrics := some wFM
    strategic_assessment := some {} }

/-- Missing-artifact fixture for the confidence witness. -/
def resMissing : PatentAnalysisResultQ := { technical_score := none }

/-- Witness for C10 at the two fixtures. -/
theorem compute_integrated_score_confidence_witness :
    compute_integrated_score (fun _ => 0) resMissing = (0, 3/10)
    ∧ (45/100 ≤ (compute_integrated_score (fun _ => 0) resAll).2
      ∧ (compute_integrated_score (fun _ => 0) resAll).2 ≤ 88/100) := by
  constructor
  · exact (compute_integrated_score_confidence (fun _ => 0) resMissing).1 (Or.inl rfl)
  · have h := (compute_integrated_score_confidence (fun _ => 0) resAll).2
      wTS {} wFM {} rfl rfl rfl rfl
    exact ⟨h.2.1, h.2.2⟩



/-! ### C5 — the IRR solver -/

theorem irrBisect_bounds (cfs : List ℚ) (fuel : ℕ) :
    ∀ (low high ln hn : ℚ), -(95/100) ≤ low → low ≤ high → high ≤ 2 →
    -95 ≤ irrBisect cfs fuel low high ln hn ∧ irrBisect cfs fuel low high ln hn ≤ 200 := by
  induction fuel with
  | zero =>
    intro low high ln hn h1 h2 h3
    unfold irrBisect
    constructor <;> linarith
  | succ n ih =>
    intro low high ln hn h1 h2 h3
    unfold irrBisect
    dsimp only
    split_ifs with hmid hsign
    · constructor <;> linarith
    · exact ih low ((low + high) / 2) ln (npvAtRate ((low + high) / 2) cfs) h1
        (by linarith) (by linarith)
    · exact ih ((low + high) / 2) high (npvAtRate ((low + high) / 2) cfs) hn
        (by linarith) (by linarith) h3

set_option maxRecDepth 20000 in
unseal Rat.add Rat.mul Rat.sub Rat.inv in
/-- C5 — the IRR solver: bisection is bounded to [-95%, 200%] (hence
so is every result), at most 80 iterations by construction of
`irrBisect`, the result is 0 whenever the first cash flow is
non-negative, all later cash flows are non-positive, or the bounds do
not bracket a root; and on the cash flows [-100, 30, 30, 30, 30] it
returns a value strictly between 0% and 35%. -/
theorem irr_solver_spec :
    (∀ cfs : List ℚ, 0 ≤ cfs.headD 0 → estimate_internal_rate_percent cfs = 0)
    ∧ (∀ cfs : List ℚ, (∀ cf ∈ cfs.tail, cf ≤ 0) → estimate_internal_rate_percent cfs = 0)
    ∧ (∀ cfs : List ℚ,
        0 < npvAtRate (-(95/100)) cfs * npvAtRate 2 cfs →
        estimate_internal_rate_percent cfs = 0)
    ∧ (∀ cfs : List ℚ, -95 ≤ estimate_internal_rate_percent cfs
        ∧ estimate_internal_rate_percent cfs ≤ 200)
    ∧ (0 < estimate_internal_rate_percent [-100, 30, 30, 30, 30]
      ∧ estimate_internal_rate_percent [-100, 30, 30, 30, 30] < 35) :=
  have h1 : ∀ cfs : List ℚ, 0 ≤ cfs.headD 0 → estimate_internal_rate_percent cfs = 0 := by
    intro cfs h
    unfold estimate_internal_rate_percent
    split_ifs <;> first | rfl | omega | exact absurd h (by assumption)
  have h2 : ∀ cfs : List ℚ, (∀ cf ∈ cfs.tail, cf ≤ 0) →
      estimate_internal_rate_percent cfs = 0 := by
    intro cfs h
    have hall : cfs.tail.all (fun cf => cf ≤ 0) = true :=
      List.all_eq_true.mpr (fun cf hcf => decide_eq_true (h cf hcf))
    unfold estimate_internal_rate_percent
    split_ifs <;> first | rfl | simp_all
  have h3 : ∀ cfs : List ℚ,
      0 < npvAtRate (-(95/100)) cfs * npvAtRate 2 cfs →
      estimate_internal_rate_percent cfs = 0 := by
    intro cfs h
    unfold estimate_internal_rate_percent
    dsimp only
    split_ifs <;> first | rfl | exact absurd h (by assumption)
  have h4 : ∀ cfs : List ℚ, -95 ≤ estimate_internal_rate_percent cfs
      ∧ estimate_internal_rate_percent cfs ≤ 200 := by
    intro cfs
    unfold estimate_internal_rate_percent
    dsimp only
    split_ifs
    · constructor <;> norm_num
    · constructor <;> norm_num
    · constructor <;> norm_num
    · constructor <;> norm_num
    · apply irrBisect_bounds <;> norm_num
  have h5 : 0 < estimate_internal_rate_percent [-100, 30, 30, 30, 30]
      ∧ estimate_internal_rate_percent [-100, 30, 30, 30, 30] < 35 := by
    decide
  ⟨h1, h2, h3, h4, h5⟩

/-- Witness for C5 discharging the zero-result hypotheses at concrete
cash flows. -/
theorem irr_solver_spec_witness :
    (0 ≤ ([5, -1] : List ℚ).headD 0 ∧ estimate_internal_rate_percent [5, -1] = 0)
    ∧ ((∀ cf ∈ ([-5, -1] : List ℚ).tail, cf ≤ 0)
      ∧ estimate_internal_rate_percent [-5, -1] = 0) :=
  ⟨⟨by norm_num, irr_solver_spec.1 [5, -1] (by norm_num)⟩,
   ⟨by intro cf hcf; simp at hcf; simp [hcf], irr_solver_spec.2.1 [-5, -1]
      (by intro cf hcf; simp at hcf; simp [hcf])⟩⟩



/-! ### C3 — defensive valuation ordering and the payback sentinel -/

/-- The cumulative cash flows never recover the initial investment:
every prefix of the post-year-0 flows leaves the running total
(including year 0) negative. -/
def neverRecovers (cfs : List ℚ) : Prop :=
  ∀ k, k < cfs.tail.length → cfs.headD 0 + ((cfs.tail.take (k + 1)).sum) < 0

/-- The base-scenario cash flows of one `estimate_financial_metrics`
call (year 0 is the negative initial investment). -/
def baseCashFlows (getBenchmark : String → IndustryBenchmark) (patent : NRecord)
    (profile : ManufacturingProfile) (ms : MacroSignals) : List ℚ :=
  let fi := mkFinInputs getBenchmark (asciiLower patent.title) (asciiLower patent.abstract)
    profile ms
  (scenario_cash_flow fi.ctx fi.growth fi.margin fi.discount 1 1 1).2

theorem paybackGo_sentinel (cf0 : ℚ) (rest : List ℚ) : ∀ (cum : ℚ) (idx : ℕ),
    (∀ k, k < rest.length → cf0 + cum + ((rest.take (k + 1)).sum) < 0) →
    paybackGo cf0 cum idx rest = 999 := by
  induction rest with
  | nil => intro cum idx _; rfl
  | cons cf cfs ih =>
    intro cum idx h
    have h0 := h 0 (by simp)
    simp only [List.take, List.sum_cons, List.sum_nil] at h0
    unfold paybackGo
    dsimp only
    rw [if_neg (by linarith)]
    apply ih
    intro k hk
    have hk1 := h (k + 1) (by simpa using Nat.succ_lt_succ hk)
    simp only [List.take_succ_cons, List.sum_cons] at hk1
    linarith

theorem paybackYears_sentinel (cfs : List ℚ) (h : neverRecovers cfs) :
    paybackYears cfs = 999 := by
  cases cfs with
  | nil => rfl
  | cons cf0 rest =>
    unfold paybackYears
    apply paybackGo_sentinel
    intro k hk
    have := h k (by simpa using hk)
    simpa using this

theorem estimateFromInputs_valuation (z : ℕ → ℕ → ℚ) (seed : ℕ) (fi : FinInputs) :
    (estimateFromInputs z seed fi).valuation_low ≤ (estimateFromInputs z seed fi).valuation_mid
    ∧ (estimateFromInputs z seed fi).valuation_mid
      ≤ (estimateFromInputs z seed fi).valuation_high := by
  unfold estimateFromInputs
  dsimp only
  constructor
  · apply max_le (le_max_left 0 _)
    refine le_trans (min_le_right _ _) (le_trans (min_le_right _ _) ?_)
    have h0 : (0 : ℚ) ≤ max 0 ((55/100) * max (scenario_cash_flow fi.ctx fi.growth
        fi.margin fi.discount 1 1 1).1 0 + (30/100) * (fi.ctx.year1_revenue
          * qpow (1 + fi.growth) 4 * npClip fi.benchmark.ev_to_sales (4/10) 10)
        + (15/100) * (fi.ctx.capex_mid * (125/100))) := le_max_left 0 _
    linarith
  · have h0 : (0 : ℚ) ≤ max 0 ((55/100) * max (scenario_cash_flow fi.ctx fi.growth
        fi.margin fi.discount 1 1 1).1 0 + (30/100) * (fi.ctx.year1_revenue
          * qpow (1 + fi.growth) 4 * npClip fi.benchmark.ev_to_sales (4/10) 10)
        + (15/100) * (fi.ctx.capex_mid * (125/100))) := le_max_left 0 _
    refine le_trans ?_ (le_trans (le_max_right _ _) (le_max_right _ _))
    linarith

/-- C3 — `estimate_financial_metrics` is total on its rational model
(it never raises by construction: every definition in its call graph
is a total function) and returns ordered valuations
`valuation_low ≤ valuation_mid ≤ valuation_high` on every input; and
whenever the cumulative base-scenario cash flows never recover the
initial investment it returns the 999.0-year payback sentinel. -/
theorem estimate_financial_metrics_safe (z : ℕ → ℕ → ℚ)
    (getBenchmark : String → IndustryBenchmark) (patent : NRecord)
    (profile : ManufacturingProfile) (ms : MacroSignals) :
    ((estimate_financial_metrics z getBenchmark patent profile ms).valuation_low
        ≤ (estimate_financial_metrics z getBenchmark patent profile ms).valuation_mid
      ∧ (estimate_financial_metrics z getBenchmark patent profile ms).valuation_mid
        ≤ (estimate_financial_metrics z getBenchmark patent profile ms).valuation_high)
    ∧ (neverRecovers (baseCashFlows getBenchmark patent profile ms) →
      (estimate_financial_metrics z getBenchmark patent profile ms).payback_period_years
        = 999) := by
  constructor
  · exact estimateFromInputs_valuation z _ _
  · intro h
    have hpb : (estimate_financial_metrics z getBenchmark patent profile ms).payback_period_years
        = paybackYears (baseCashFlows getBenchmark patent profile ms) := rfl
    rw [hpb]
    exact paybackYears_sentinel _ h

/-- Benchmark of the concrete scenario-ordering counterexample: the
operating margin sits at the lower clamp, sales-to-invested-capital at
the lower clamp and the working-capital ratio at the upper clamp, so
marginal revenue destroys value inside the 10-year window. -/
def cexBench : IndustryBenchmark :=
  { industry_name := "Electronics (General)", cost_of_capital := 10/100,
    tax_rate := 30/100, operating_margin := 5/100, net_capex_to_revenue := 40/100,
    sales_to_invested_capital := 9/10, non_cash_working_capital_to_revenue := 30/100,
    revenues_musd := 1000000, ev_to_sales := 2 }

/-- Macro signals of the concrete counterexample. -/
def cexMs : MacroSignals :=
  { risk_free_rate := 4/100, inflation_rate := 2/100, real_gdp_growth := 2/100 }

/-- Manufacturing profile of the concrete counterexample. -/
def cexProf : ManufacturingProfile :=
  { capex_low := 100000, capex_high := 100000,
    benchmark_industry := "Electronics (General)" }

/-- The all-zero standard-normal stream (every draw at the mean). -/
def zZero : ℕ → ℕ → ℚ := fun _ _ => 0

instance neverRecoversDecidable (cfs : List ℚ) : Decidable (neverRecovers cfs) :=
  inferInstanceAs (Decidable
    (∀ k, k < cfs.tail.length → cfs.headD 0 + ((cfs.tail.take (k + 1)).sum) < 0))

set_option maxRecDepth 20000 in
unseal Rat.add Rat.mul Rat.sub Rat.inv in
/-- Witness for C3: at the counterexample fixture the cumulative base
cash flows never recover the investment, and the call returns the
999-year sentinel together with ordered valuations. -/
theorem estimate_financial_metrics_safe_witness :
    neverRecovers (baseCashFlows (fun _ => cexBench) {} cexProf cexMs)
    ∧ ((estimate_financial_metrics zZero (fun _ => cexBench) {} cexProf cexMs).payback_period_years
        = 999
      ∧ (estimate_financial_metrics zZero (fun _ => cexBench) {} cexProf cexMs).valuation_low
        ≤ (estimate_financial_metrics zZero (fun _ => cexBench) {} cexProf cexMs).valuation_mid) :=
  have h : neverRecovers (baseCashFlows (fun _ => cexBench) {} cexProf cexMs) := by decide
  ⟨h, (estimate_financial_metrics_safe zZero (fun _ => cexBench) {} cexProf cexMs).2 h,
    (estimate_financial_metrics_safe zZero (fun _ => cexBench) {} cexProf cexMs).1.1⟩



/-! ### C1 — scenario ordering -/

/-- Strong benchmark fixture of
`tests/test_financial_viability_model.py`. -/
def fixBench : IndustryBenchmark :=
  { industry_name := "Electronics (General)", number_of_firms := 100, beta := 11/10,
    cost_of_capital := 75/1000, tax_rate := 22/100, operating_margin := 24/100,
    net_margin := 156/1000, ev_to_sales := 41/10, price_to_sales := 37/10,
    non_cash_working_capital_to_revenue := 11/100, net_capex_to_revenue := 30/1000,
    sales_to_invested_capital := 31/10, market_cap_musd := 1200000,
    enterprise_value_musd := 1600000, revenues_musd := 850000 }

/-- Macro fixture of the test's `StaticMCPStack`. -/
def fixMs : MacroSignals :=
  { as_of := "2026-02-18", risk_free_rate := 40/1000, inflation_rate := 25/1000,
    producer_price_inflation := 22/1000, manufacturing_wage_growth := 30/1000,
    manufacturing_capacity_utilization := 76/100, real_gdp_growth := 22/1000 }

/-- Candidate fixture `US-TEST-002` of the tests. -/
def fixPatent : NRecord :=
  { patent_number := "US-TEST-002",
    title := "Automated manufacturing process control method",
    abstract := "Improves production throughput with predictive controls.",
    filing_date := some "1998-04-12" }

/-- Explicit manufacturing-profile fixture of the tests. -/
def fixProf : ManufacturingProfile :=
  { required_materials := ["electronic"], required_equipment := ["automation"],
    process_complexity := "medium", trl_estimate := 7, capex_low := 120000,
    capex_high := 180000, opex_annual_change := 15000,
    production_type := "continuous", modernization_timeline_months := 8,
    benchmark_industry := "Electronics (General)" }

set_option maxRecDepth 20000 in
unseal Rat.add Rat.mul Rat.sub Rat.inv in
/-- C1 refutation — the scenario NPVs returned by
`estimate_financial_metrics` are NOT always ordered: at an admissible
concrete input (operating margin at the 0.05 lower clamp,
sales-to-invested-capital at the 0.9 lower clamp, working-capital
ratio at the 0.30 upper clamp, high benchmark capex intensity) the
optimistic NPV is strictly below the base NPV and the pessimistic NPV
is strictly above it. -/
theorem scenario_ordering_counterexample :
    (estimate_financial_metrics zZero (fun _ => cexBench) {} cexProf cexMs).npv_optimistic
      < (estimate_financial_metrics zZero (fun _ => cexBench) {} cexProf cexMs).npv_base
    ∧ (estimate_financial_metrics zZero (fun _ => cexBench) {} cexProf cexMs).npv_base
      < (estimate_financial_metrics zZero (fun _ => cexBench) {} cexProf cexMs).npv_pessimistic := by
  decide

set_option maxRecDepth 20000 in
unseal Rat.add Rat.mul Rat.sub Rat.inv in
/-- C1 (amended) — the scenario ordering
`npv_optimistic ≥ npv_base ≥ npv_pessimistic` is not an invariant of
`estimate_financial_metrics` over all benchmark/profile/macro inputs
(see the counterexample); it does hold on the repository's own
financial-model test fixture (the strong Electronics benchmark, the
explicit test manufacturing profile, and candidate `US-TEST-002`);
the scenario NPVs do not depend on the Monte Carlo stream, which is
fixed to the all-zero stream here. -/
theorem scenario_ordering_fixture :
    (estimate_financial_metrics zZero (fun _ => fixBench) fixPatent fixProf fixMs).npv_base
      ≤ (estimate_financial_metrics zZero (fun _ => fixBench) fixPatent fixProf fixMs).npv_optimistic
    ∧ (estimate_financial_metrics zZero (fun _ => fixBench) fixPatent fixProf fixMs).npv_pessimistic
      ≤ (estimate_financial_metrics zZero (fun _ => fixBench) fixPatent fixProf fixMs).npv_base := by
  decide


/-! ### C2 and C9 — Monte Carlo determinism and the seed -/

theorem mcNpvs_congr (z z2 : ℕ → ℕ → ℚ) (seed : ℕ) (fi : FinInputs)
    (h : ∀ i, z seed i = z2 seed i) : mcNpvs z seed fi = mcNpvs z2 seed fi := by
  unfold mcNpvs
  apply List.map_congr_left
  intro k _
  unfold mcSimNpv
  simp only [h]

theorem estimateFromInputs_congr_z (z z2 : ℕ → ℕ → ℚ) (seed : ℕ) (fi : FinInputs)
    (h : ∀ i, z seed i = z2 seed i) :
    estimateFromInputs z seed fi = estimateFromInputs z2 seed fi := by
  unfold estimateFromInputs
  rw [mcNpvs_congr z z2 seed fi h]

/-- C2 — Monte Carlo determinism: the model of a "run" is the seeded
standard-normal stream of its generator, and
`numpy.random.default_rng` makes that stream a fixed function of the
seed, so two runs agree on every seeded sequence.  For any two runs
whose streams agree on the seed derived from the candidate — that seed
being exactly `sum(ord(ch) for ch in patent_number) + 10` for the
10-year horizon — `estimate_financial_metrics` on the same candidate,
profile, benchmark and macro inputs returns identical
`risk_adjusted_npv_p10` and `risk_adjusted_npv_p90`. -/
theorem monte_carlo_determinism (z z2 : ℕ → ℕ → ℚ)
    (getBenchmark : String → IndustryBenchmark) (patent : NRecord)
    (profile : ManufacturingProfile) (ms : MacroSignals)
    (h : ∀ i, z (mcSeed patent.patent_number) i = z2 (mcSeed patent.patent_number) i) :
    mcSeed patent.patent_number = ordSum patent.patent_number + 10
    ∧ (estimate_financial_metrics z getBenchmark patent profile ms).risk_adjusted_npv_p10
      = (estimate_financial_metrics z2 getBenchmark patent profile ms).risk_adjusted_npv_p10
    ∧ (estimate_financial_metrics z getBenchmark patent profile ms).risk_adjusted_npv_p90
      = (estimate_financial_metrics z2 getBenchmark patent profile ms).risk_adjusted_npv_p90 := by
  refine ⟨rfl, ?_, ?_⟩ <;>
    (unfold estimate_financial_metrics; rw [estimateFromInputs_congr_z _ _ _ _ h])

/-- A second run: a stream that agrees with the all-zero stream on
seed 10 but differs on every other seed. -/
def zAlt : ℕ → ℕ → ℚ := fun seed _ => if seed = 10 then 0 else 1

/-- Witness for C2: two distinct streams agreeing on the derived seed
give identical P10/P90. -/
theorem monte_carlo_determinism_witness :
    (∀ i, zZero (mcSeed (NRecord.patent_number {})) i = zAlt (mcSeed (NRecord.patent_number {})) i)
    ∧ (estimate_financial_metrics zZero (fun _ => cexBench) {} cexProf cexMs).risk_adjusted_npv_p10
      = (estimate_financial_metrics zAlt (fun _ => cexBench) {} cexProf cexMs).risk_adjusted_npv_p10
    ∧ (estimate_financial_metrics zZero (fun _ => cexBench) {} cexProf cexMs).risk_adjusted_npv_p90
      = (estimate_financial_metrics zAlt (fun _ => cexBench) {} cexProf cexMs).risk_adjusted_npv_p90 :=
  have h : ∀ i, zZero (mcSeed (NRecord.patent_number {})) i
      = zAlt (mcSeed (NRecord.patent_number {})) i := fun _ => rfl
  ⟨h, (monte_carlo_determinism zZero zAlt (fun _ => cexBench) {} cexProf cexMs h).2.1,
    (monte_carlo_determinism zZero zAlt (fun _ => cexBench) {} cexProf cexMs h).2.2⟩

/-- C9 — the Monte Carlo seed is the character-ordinal sum of the
identifier plus the horizon, so two candidates with equal ordinal sums
(for example permuted identifiers) and equal remaining financial
inputs receive the same seed and identical P10/P90 envelopes from
`estimate_financial_metrics`, under any one run's stream. -/
theorem monte_carlo_seed_collision (z : ℕ → ℕ → ℚ)
    (getBenchmark : String → IndustryBenchmark) (p1 p2 : NRecord)
    (profile : ManufacturingProfile) (ms : MacroSignals)
    (ht : p1.title = p2.title) (ha : p1.abstract = p2.abstract)
    (hs : ordSum p1.patent_number = ordSum p2.patent_number) :
    mcSeed p1.patent_number = mcSeed p2.patent_number
    ∧ (estimate_financial_metrics z getBenchmark p1 profile ms).risk_adjusted_npv_p10
      = (estimate_financial_metrics z getBenchmark p2 profile ms).risk_adjusted_npv_p10
    ∧ (estimate_financial_metrics z getBenchmark p1 profile ms).risk_adjusted_npv_p90
      = (estimate_financial_metrics z getBenchmark p2 profile ms).risk_adjusted_npv_p90 := by
  have hseed : mcSeed p1.patent_number = mcSeed p2.patent_number := by
    unfold mcSeed
    rw [hs]
  refine ⟨hseed, ?_, ?_⟩ <;>
    (unfold estimate_financial_metrics; rw [ht, ha, hseed])

/-- First permuted-identifier candidate for the C9 witness. -/
def permA : NRecord := { patent_number := "AB" }

/-- Second permuted-identifier candidate for the C9 witness. -/
def permB : NRecord := { patent_number := "BA" }

/-- Witness for C9: the identifiers "AB" and "BA" have equal ordinal
sums and produce identical envelopes. -/
theorem monte_carlo_seed_collision_witness :
    ordSum permA.patent_number = ordSum permB.patent_number
    ∧ (estimate_financial_metrics zZero (fun _ => cexBench) permA cexProf cexMs).risk_adjusted_npv_p10
      = (estimate_financial_metrics zZero (fun _ => cexBench) permB cexProf cexMs).risk_adjusted_npv_p10
    ∧ (estimate_financial_metrics zZero (fun _ => cexBench) permA cexProf cexMs).risk_adjusted_npv_p90
      = (estimate_financial_metrics zZero (fun _ => cexBench) permB cexProf cexMs).risk_adjusted_npv_p90 :=
  have hs : ordSum permA.patent_number = ordSum permB.patent_number := by decide
  ⟨hs, (monte_carlo_seed_collision zZero (fun _ => cexBench) permA permB cexProf cexMs
      rfl rfl hs).2.1,
    (monte_carlo_seed_collision zZero (fun _ => cexBench) permA permB cexProf cexMs
      rfl rfl hs).2.2⟩



/-! ### C6 — expiration confidence from the filing date -/

set_option maxRecDepth 8000 in
unseal Rat.add Rat.mul Rat.sub Rat.inv in
/-- C6 refutation — a filing date exactly 10 calendar years before the
as-of date does NOT yield 5.0: the 2013-06-15 → 2023-06-15 interval is
3652 days, and `round(clamp((3652/365/20)·10), 3)` is 5.003. -/
theorem expiration_confidence_ten_year_counterexample :
    expiration_confidence_score { filing_date := some "2013-06-15" } ⟨2023, 6, 15⟩
      = 5003/1000
    ∧ (5003/1000 : ℚ) ≠ 5 := by
  decide

set_option maxRecDepth 8000 in
unseal Rat.add Rat.mul Rat.sub Rat.inv in
/-- C6 (amended) — when the filing date is known,
`expiration_confidence_score` equals
`round(clamp((years-since-filing / 20) · 10), 3)` with
`years-since-filing = max(0, days/365)`; any filing at least 7300 days
old scores 10.0 — in particular a filing exactly 20 calendar years
before the as-of date; a filing exactly 3650 days before the as-of
date scores exactly 5.0, while a filing exactly 10 calendar years
before (2013-06-15 against 2023-06-15) scores 5.003 rather than
5.0. -/
theorem expiration_confidence_formula :
    (∀ (p : NRecord) (asOf f : YMD), isoDateOfOpt p.filing_date = some f →
      expiration_confidence_score p asOf
        = roundQ3 (clamp10 ((max 0 ((daysBetween asOf f : ℚ) / 365) / 20) * 10)))
    ∧ (∀ (p : NRecord) (asOf f : YMD), isoDateOfOpt p.filing_date = some f →
        (7300 : ℤ) ≤ daysBetween asOf f → expiration_confidence_score p asOf = 10)
    ∧ expiration_confidence_score { filing_date := some "2003-06-15" } ⟨2023, 6, 15⟩ = 10
    ∧ expiration_confidence_score { filing_date := some "2013-06-17" } ⟨2023, 6, 15⟩ = 5
    ∧ expiration_confidence_score { filing_date := some "2013-06-15" } ⟨2023, 6, 15⟩
      = 5003/1000 :=
  have hformula : ∀ (p : NRecord) (asOf f : YMD), isoDateOfOpt p.filing_date = some f →
      expiration_confidence_score p asOf
        = roundQ3 (clamp10 ((max 0 ((daysBetween asOf f : ℚ) / 365) / 20) * 10)) := by
    intro p asOf f h
    unfold expiration_confidence_score
    simp only [h]
  have htwenty : ∀ (p : NRecord) (asOf f : YMD), isoDateOfOpt p.filing_date = some f →
      (7300 : ℤ) ≤ daysBetween asOf f → expiration_confidence_score p asOf = 10 := by
    intro p asOf f h hdays
    rw [hformula p asOf f h]
    have hq : (7300 : ℚ) ≤ (daysBetween asOf f : ℚ) := by exact_mod_cast hdays
    have hage : (20 : ℚ) ≤ max 0 ((daysBetween asOf f : ℚ) / 365) := by
      refine le_trans ?_ (le_max_right 0 _)
      linarith
    have hclamp : clamp10 (max 0 ((daysBetween asOf f : ℚ) / 365) / 20 * 10) = 10 := by
      unfold clamp10 clamp
      rw [min_eq_left (by linarith), max_eq_right (by norm_num)]
    rw [hclamp]
    decide
  ⟨hformula, htwenty, by decide, by decide, by decide⟩

set_option maxRecDepth 8000 in
unseal Rat.add Rat.mul Rat.sub Rat.inv in
/-- Witness for C6 at concrete dates, discharging the parse and age
hypotheses. -/
theorem expiration_confidence_formula_witness :
    (isoDateOfOpt (NRecord.filing_date { filing_date := some "2013-06-15" })
        = some ⟨2013, 6, 15⟩
      ∧ expiration_confidence_score { filing_date := some "2013-06-15" } ⟨2023, 6, 15⟩
        = roundQ3 (clamp10
          ((max 0 ((daysBetween ⟨2023, 6, 15⟩ ⟨2013, 6, 15⟩ : ℚ) / 365) / 20) * 10)))
    ∧ ((7300 : ℤ) ≤ daysBetween ⟨2023, 6, 15⟩ ⟨2003, 6, 15⟩
      ∧ expiration_confidence_score { filing_date := some "2003-06-15" } ⟨2023, 6, 15⟩ = 10) :=
  have hp : isoDateOfOpt (NRecord.filing_date { filing_date := some "2013-06-15" })
      = some ⟨2013, 6, 15⟩ := by decide
  have hp2 : isoDateOfOpt (NRecord.filing_date { filing_date := some "2003-06-15" })
      = some ⟨2003, 6, 15⟩ := by decide
  have hd : (7300 : ℤ) ≤ daysBetween ⟨2023, 6, 15⟩ ⟨2003, 6, 15⟩ := by decide
  ⟨⟨hp, expiration_confidence_formula.1 _ ⟨2023, 6, 15⟩ ⟨2013, 6, 15⟩ hp⟩,
   ⟨hd, expiration_confidence_formula.2.1 _ ⟨2023, 6, 15⟩ ⟨2003, 6, 15⟩ hp2 hd⟩⟩



/-! ### C4 — the final sort of the reranker -/

theorem char_eq_of_toNat_eq (a b : Char) (h : a.toNat = b.toNat) : a = b :=
  Char.eq_of_val_eq (UInt32.eq_of_val_eq (Fin.eq_of_val_eq h))

theorem strLtCh_total : ∀ a b : List Char, strLtCh a b = true ∨ a = b ∨ strLtCh b a = true := by
  intro a
  induction a with
  | nil =>
    intro b
    cases b with
    | nil => exact Or.inr (Or.inl rfl)
    | cons y ys => exact Or.inl rfl
  | cons x xs ih =>
    intro b
    cases b with
    | nil => exact Or.inr (Or.inr rfl)
    | cons y ys =>
      rcases Nat.lt_trichotomy x.toNat y.toNat with hxy | hxy | hxy
      · left
        simp [strLtCh, chLt, hxy]
      · have hxyc : x = y := char_eq_of_toNat_eq x y hxy
        subst hxyc
        rcases ih ys with h | h | h
        · left
          simp [strLtCh, chLt, h]
        · subst h
          exact Or.inr (Or.inl rfl)
        · right; right
          simp [strLtCh, chLt, h]
      · right; right
        simp [strLtCh, chLt, hxy]

theorem strLtCh_trans : ∀ a b c : List Char,
    strLtCh a b = true → strLtCh b c = true → strLtCh a c = true := by
  intro a
  induction a with
  | nil =>
    intro b c h1 h2
    cases b with
    | nil => simp [strLtCh] at h1
    | cons y ys =>
      cases c with
      | nil => simp [strLtCh] at h2
      | cons z zs => rfl
  | cons x xs ih =>
    intro b c h1 h2
    cases b with
    | nil => simp [strLtCh] at h1
    | cons y ys =>
      cases c with
      | nil => simp [strLtCh] at h2
      | cons z zs =>
        simp only [strLtCh, chLt, Bool.or_eq_true, Bool.and_eq_true, decide_eq_true_eq,
          beq_iff_eq] at h1 h2 ⊢
        rcases h1 with h1 | ⟨rfl, h1⟩
        · rcases h2 with h2 | ⟨rfl, h2⟩
          · exact Or.inl (lt_trans h1 h2)
          · exact Or.inl h1
        · rcases h2 with h2 | ⟨rfl, h2⟩
          · exact Or.inl h2
          · exact Or.inr ⟨rfl, ih ys zs h1 h2⟩

theorem string_eq_of_data_eq (a b : String) (h : a.data = b.data) : a = b := by
  cases a
  cases b
  exact congrArg String.mk h

theorem strLe_total (a b : String) : strLe a b = true ∨ strLe b a = true := by
  unfold strLe strLt
  rcases strLtCh_total a.data b.data with h | h | h
  · left
    simp [h]
  · left
    simp [beq_iff_eq, string_eq_of_data_eq a b h]
  · right
    simp [h]

theorem strLe_trans (a b c : String) (h1 : strLe a b = true) (h2 : strLe b c = true) :
    strLe a c = true := by
  unfold strLe strLt at h1 h2 ⊢
  simp only [Bool.or_eq_true, beq_iff_eq] at h1 h2 ⊢
  rcases h1 with h1 | rfl
  · rcases h2 with h2 | rfl
    · exact Or.inl (strLtCh_trans _ _ _ h1 h2)
    · exact Or.inl h1
  · exact h2

theorem keyLeB_total (x y : ℚ × String × String) :
    keyLeB x y = true ∨ keyLeB y x = true := by
  unfold keyLeB
  simp only [Bool.or_eq_true, Bool.and_eq_true, decide_eq_true_eq, beq_iff_eq]
  rcases lt_trichotomy x.1 y.1 with h | h | h
  · exact Or.inl (Or.inl h)
  · rcases strLtCh_total x.2.1.data y.2.1.data with hs | hs | hs
    · exact Or.inl (Or.inr ⟨h, Or.inl hs⟩)
    · have heq : x.2.1 = y.2.1 := string_eq_of_data_eq _ _ hs
      rcases strLe_total x.2.2 y.2.2 with hl | hl
      · exact Or.inl (Or.inr ⟨h, Or.inr ⟨heq, hl⟩⟩)
      · exact Or.inr (Or.inr ⟨h.symm, Or.inr ⟨heq.symm, hl⟩⟩)
    · exact Or.inr (Or.inr ⟨h.symm, Or.inl hs⟩)
  · exact Or.inr (Or.inl h)

theorem keyLeB_trans (x y z : ℚ × String × String)
    (h1 : keyLeB x y = true) (h2 : keyLeB y z = true) : keyLeB x z = true := by
  unfold keyLeB at h1 h2 ⊢
  simp only [Bool.or_eq_true, Bool.and_eq_true, decide_eq_true_eq, beq_iff_eq] at h1 h2 ⊢
  rcases h1 with h1 | ⟨he1, hs1⟩
  · rcases h2 with h2 | ⟨he2, _⟩
    · exact Or.inl (lt_trans h1 h2)
    · exact Or.inl (he2 ▸ h1)
  · rcases h2 with h2 | ⟨he2, hs2⟩
    · exact Or.inl (he1 ▸ h2)
    · refine Or.inr ⟨he1.trans he2, ?_⟩
      rcases hs1 with hs1 | ⟨hq1, hl1⟩
      · rcases hs2 with hs2 | ⟨hq2, hl2⟩
        · exact Or.inl (strLtCh_trans _ _ _ hs1 hs2)
        · exact Or.inl (hq2 ▸ hs1)
      · rcases hs2 with hs2 | ⟨hq2, hl2⟩
        · exact Or.inl (hq1 ▸ hs2)
        · exact Or.inr ⟨hq1.trans hq2, strLe_trans _ _ _ hl1 hl2⟩

instance : IsTotal ScoredRec rankGE :=
  ⟨fun a b => keyLeB_total (sortKey b) (sortKey a)⟩

instance : IsTrans ScoredRec rankGE :=
  ⟨fun _ _ _ hab hbc => keyLeB_trans _ _ _ hbc hab⟩

/-- C4 (amended) — `rerank_patent_candidates_v2` returns a permutation
of the scored candidates sorted so that every earlier entry has a
lexicographically greater-or-equal `(total, grant date, identifier)`
key: descending by scorecard total, ties by grant date descending,
remaining ties by identifier DESCENDING (Python's `reverse=True`
reverses every tuple component, including the identifier).  Holds for
every value of the transcendental `log`/`sqrt` parameters, every
configuration and as-of date, and every candidate list. -/
theorem rerank_sorted_descending (logQ sqrtQ : ℚ → ℚ) (candidates : List NRecord)
    (cfg : SearchCfg) (asOf : YMD) :
    List.Sorted rankGE (rerank_patent_candidates_v2 logQ sqrtQ candidates cfg asOf)
    ∧ (rerank_patent_candidates_v2 logQ sqrtQ candidates cfg asOf).Perm
      (scoredCandidates logQ sqrtQ candidates cfg asOf) := by
  unfold rerank_patent_candidates_v2
  by_cases hc : candidates.isEmpty
  · have hnil : candidates = [] := List.isEmpty_iff.mp hc
    subst hnil
    simp [scoredCandidates, hc]
  · simp only [hc, if_false, Bool.false_eq_true]
    exact ⟨List.sorted_insertionSort rankGE _, List.perm_insertionSort rankGE _⟩

/-- First candidate of the tie-break counterexample. -/
def tieA : NRecord := { patent_number := "US1" }

/-- Second candidate of the tie-break counterexample. -/
def tieB : NRecord := { patent_number := "US2" }

set_option maxRecDepth 8000 in
unseal Rat.add Rat.mul Rat.sub Rat.inv in
/-- C4 refutation — among candidates with equal scorecard total and
equal grant date, the identifiers come out DESCENDING, not ascending:
two otherwise-identical candidates "US1" and "US2" are returned as
["US2", "US1"] although "US1" < "US2". -/
theorem rerank_identifier_tiebreak_counterexample :
    (rerank_patent_candidates_v2 (fun _ => 0) (fun _ => 0) [tieA, tieB] {} ⟨2023, 6, 15⟩).map
        (fun sr => sr.record.patent_number) = ["US2", "US1"]
    ∧ (rerank_patent_candidates_v2 (fun _ => 0) (fun _ => 0) [tieA, tieB] {} ⟨2023, 6, 15⟩).map
        (fun sr => sr.scorecard.total) = [8/25, 8/25]
    ∧ (rerank_patent_candidates_v2 (fun _ => 0) (fun _ => 0) [tieA, tieB] {} ⟨2023, 6, 15⟩).map
        (fun sr => sr.record.patent_date) = [none, none]
    ∧ strLt "US1" "US2" = true := by
  refine ⟨by decide, by decide, by decide, by decide⟩



/-! ### C7 — deduplication -/

/-- The occurrences of a dedupe key among the normalized pass records,
in input order, with their pass names. -/
def occsFor (pass_records : List (String × RawRecord)) (k : String) :
    List (String × NRecord) :=
  pass_records.filterMap (fun pr =>
    let n := normalize_patent_record pr.2
    if dedupeKey n = k then some (pr.1, n) else none)

/-- Collapse a non-empty occurrence list the way the deduplication
dictionary does: initialize from the first occurrence, then merge the
later ones in order. -/
def collapseOccs : List (String × NRecord) → NRecord
  | [] => {}
  | (p, n) :: rest => rest.foldl (fun r q => mergeRec r q.1 q.2) (initRec p n)

theorem lookup_isSome_iff (l : List (String × NRecord)) (k : String) :
    (l.lookup k).isSome = true ↔ k ∈ l.map Prod.fst := by
  induction l with
  | nil => simp [List.lookup]
  | cons e t ih =>
    obtain ⟨k2, v⟩ := e
    by_cases h : k = k2
    · subst h
      simp [List.lookup]
    · simp [List.lookup, beq_false_of_ne h, h, ih]

theorem occsFor_append (prs : List (String × RawRecord)) (x : String × RawRecord)
    (k : String) :
    occsFor (prs ++ [x]) k = occsFor prs k
      ++ (if dedupeKey (normalize_patent_record x.2) = k
          then [(x.1, normalize_patent_record x.2)] else []) := by
  unfold occsFor
  rw [List.filterMap_append]
  congr 1
  by_cases h : dedupeKey (normalize_patent_record x.2) = k <;> simp [h]

theorem dedupeAssoc_append (prs : List (String × RawRecord)) (x : String × RawRecord) :
    dedupeAssoc (prs ++ [x]) = insertPair (dedupeAssoc prs) x.1 x.2 := by
  unfold dedupeAssoc
  rw [List.foldl_append]
  rfl

theorem collapseOccs_snoc (occs : List (String × NRecord)) (q : String × NRecord)
    (h : occs ≠ []) :
    collapseOccs (occs ++ [q]) = mergeRec (collapseOccs occs) q.1 q.2 := by
  cases occs with
  | nil => exact absurd rfl h
  | cons e t =>
    obtain ⟨p, n⟩ := e
    simp [collapseOccs, List.foldl_append]

theorem occsFor_key (prs : List (String × RawRecord)) (k : String) :
    ∀ q ∈ occsFor prs k, dedupeKey q.2 = k := by
  intro q hq
  unfold occsFor at hq
  obtain ⟨pr, _, hpr⟩ := List.mem_filterMap.mp hq
  by_cases h : dedupeKey (normalize_patent_record pr.2) = k
  · simp only [h, if_pos] at hpr
    cases hpr
    exact h
  · simp [h] at hpr

/-- The three joint invariants of the deduplication fold: stored keys
are distinct, a key is stored exactly when it occurs, and every stored
record is the collapse of its occurrence list. -/
theorem dedupeAssoc_spec (prs : List (String × RawRecord)) :
    ((dedupeAssoc prs).map Prod.fst).Nodup
    ∧ (∀ k, ((dedupeAssoc prs).lookup k).isSome = true ↔ occsFor prs k ≠ [])
    ∧ (∀ e ∈ dedupeAssoc prs, e.2 = collapseOccs (occsFor prs e.1)) := by
  induction prs using List.reverseRecOn with
  | nil =>
    refine ⟨by simp [dedupeAssoc], ?_, by simp [dedupeAssoc]⟩
    intro k
    simp [dedupeAssoc, occsFor, List.lookup]
  | append_singleton prs x ih =>
    obtain ⟨hnodup, hmemiff, hcollapse⟩ := ih
    rw [dedupeAssoc_append]
    unfold insertPair
    set n := normalize_patent_record x.2 with hn
    set kx := dedupeKey n with hkx
    by_cases hfound : ((dedupeAssoc prs).lookup kx).isSome = true
    · -- the key is already stored: in-place merge
      simp only [hfound, if_pos]
      have hkeys : ((dedupeAssoc prs).map
          (fun p => if p.1 = kx then (p.1, mergeRec p.2 x.1 n) else p)).map Prod.fst
          = (dedupeAssoc prs).map Prod.fst := by
        rw [List.map_map]
        apply List.map_congr_left
        intro p _
        by_cases hp : p.1 = kx <;> simp [hp]
      refine ⟨by rw [hkeys]; exact hnodup, ?_, ?_⟩
      · intro k
        have hlk : (((dedupeAssoc prs).map
            (fun p => if p.1 = kx then (p.1, mergeRec p.2 x.1 n) else p)).lookup k).isSome
            = ((dedupeAssoc prs).lookup k).isSome := by
          rw [Bool.eq_iff_iff, lookup_isSome_iff, lookup_isSome_iff, hkeys]
        rw [hlk, occsFor_append, hmemiff k]
        by_cases hkk : kx = k
        · subst hkk
          have : occsFor prs kx ≠ [] := (hmemiff kx).mp hfound
          simp [this]
        · rw [← hkx, ← hn]
          simp [hkk]
      · intro e he
        obtain ⟨e0, he0, hee⟩ := List.mem_map.mp he
        by_cases hp : e0.1 = kx
        · simp only [hp, if_pos] at hee
          subst hee
          have hocc : occsFor (prs ++ [x]) kx = occsFor prs kx ++ [(x.1, n)] := by
            rw [occsFor_append, ← hkx, ← hn]
            simp
          dsimp only
          rw [hocc, collapseOccs_snoc _ _ ((hmemiff kx).mp hfound),
            hcollapse e0 he0, hp]
        · simp only [hp, if_neg, if_false] at hee
          subst hee
          have hne : ¬ kx = e0.1 := fun h => hp h.symm
          have hocc : occsFor (prs ++ [x]) e0.1 = occsFor prs e0.1 := by
            rw [occsFor_append, ← hkx, ← hn]
            simp [hne]
          rw [hocc]
          exact hcollapse e0 he0
    · -- fresh key: append a new entry
      simp only [hfound, if_neg, if_false, Bool.not_eq_true]
      have hkxnotin : kx ∉ (dedupeAssoc prs).map Prod.fst := by
        intro hmem
        exact absurd ((lookup_isSome_iff _ _).mpr hmem) (by simp [hfound])
      have hempty : occsFor prs kx = [] := by
        by_contra hne
        exact absurd ((hmemiff kx).mpr hne) (by simp [hfound])
      refine ⟨?_, ?_, ?_⟩
      · rw [List.map_append]
        simp only [List.map_cons, List.map_nil]
        rw [List.nodup_append]
        exact ⟨hnodup, List.nodup_singleton kx, by simpa using hkxnotin⟩
      · intro k
        have hlk : (((dedupeAssoc prs) ++ [(kx, initRec x.1 n)]).lookup k).isSome = true
            ↔ ((dedupeAssoc prs).lookup k).isSome = true ∨ k = kx := by
          rw [lookup_isSome_iff, lookup_isSome_iff, List.map_append]
          simp
        rw [hlk, occsFor_append, hmemiff k, ← hkx, ← hn]
        by_cases hkk : kx = k
        · subst hkk
          simp
        · have hne : ¬ k = kx := fun h => hkk h.symm
          simp [hkk, hne]
      · intro e he
        rcases List.mem_append.mp he with he | he
        · have hocc : occsFor (prs ++ [x]) e.1 = occsFor prs e.1 := by
            rw [occsFor_append, ← hkx, ← hn]
            have : kx ≠ e.1 := by
              intro hkk
              exact hkxnotin (hkk ▸ List.mem_map_of_mem Prod.fst he)
            simp [this]
          rw [hocc]
          exact hcollapse e he
        · simp only [List.mem_singleton] at he
          subst he
          have hocc : occsFor (prs ++ [x]) kx = [(x.1, n)] := by
            rw [occsFor_append, ← hkx, ← hn, hempty]
            simp
          dsimp only
          rw [hocc]
          rfl

theorem dedupeAssoc_length (prs : List (String × RawRecord)) :
    (dedupeAssoc prs).length ≤ prs.length := by
  induction prs using List.reverseRecOn with
  | nil => simp [dedupeAssoc]
  | append_singleton prs x ih =>
    rw [dedupeAssoc_append]
    unfold insertPair
    by_cases hfound : (((dedupeAssoc prs)).lookup
        (dedupeKey (normalize_patent_record x.2))).isSome = true
    · simp only [hfound, if_pos]
      rw [List.length_map, List.length_append]
      omega
    · simp only [hfound, if_neg, if_false, Bool.not_eq_true]
      rw [List.length_append, List.length_append]
      simpa using ih



theorem foldl_mergeRec_fields (tl : List (String × NRecord)) :
    ∀ r : NRecord,
    (tl.foldl (fun r2 q => mergeRec r2 q.1 q.2) r).patent_number = r.patent_number
    ∧ (tl.foldl (fun r2 q => mergeRec r2 q.1 q.2) r).title = r.title
    ∧ (tl.foldl (fun r2 q => mergeRec r2 q.1 q.2) r).patent_date = r.patent_date
    ∧ (tl.foldl (fun r2 q => mergeRec r2 q.1 q.2) r).link = r.link
    ∧ (tl.foldl (fun r2 q => mergeRec r2 q.1 q.2) r).source_provider = r.source_provider
    ∧ (tl.foldl (fun r2 q => mergeRec r2 q.1 q.2) r).patent_type = r.patent_type
    ∧ (tl.foldl (fun r2 q => mergeRec r2 q.1 q.2) r).assignee_type = r.assignee_type := by
  induction tl with
  | nil => intro r; exact ⟨rfl, rfl, rfl, rfl, rfl, rfl, rfl⟩
  | cons q tl ih => intro r; exact ih (mergeRec r q.1 q.2)

theorem foldl_mergeRec_abstract (tl : List (String × NRecord)) :
    ∀ r : NRecord,
    (tl.foldl (fun r2 q => mergeRec r2 q.1 q.2) r).abstract
      = if r.abstract ≠ "" then r.abstract
        else ((tl.map (fun q => q.2.abstract)).find? (fun s2 => !(s2 == ""))).getD "" := by
  induction tl with
  | nil =>
    intro r
    by_cases h : r.abstract = "" <;> simp [h]
  | cons q tl ih =>
    intro r
    rw [List.foldl_cons, ih (mergeRec r q.1 q.2)]
    by_cases hr : r.abstract = ""
    · by_cases hq : q.2.abstract = ""
      · simp [mergeRec, hr, hq, List.find?]
      · have hb : (q.2.abstract == "") = false := beq_false_of_ne hq
        simp [mergeRec, hr, hq, List.find?, hb]
    · simp [mergeRec, hr, List.find?]

theorem foldl_mergeRec_filing (tl : List (String × NRecord)) :
    ∀ r : NRecord,
    (tl.foldl (fun r2 q => mergeRec r2 q.1 q.2) r).filing_date
      = if truthyO r.filing_date then r.filing_date
        else ((tl.map (fun q => q.2.filing_date)).find? truthyO).getD r.filing_date := by
  induction tl with
  | nil =>
    intro r
    by_cases h : truthyO r.filing_date <;> simp [h]
  | cons q tl ih =>
    intro r
    rw [List.foldl_cons, ih (mergeRec r q.1 q.2)]
    by_cases hr : truthyO r.filing_date
    · simp [mergeRec, hr, List.find?]
    · by_cases hq : truthyO q.2.filing_date
      · simp [mergeRec, hr, hq, List.find?]
      · simp [mergeRec, hr, hq, List.find?]

/-- The accumulation step of `_retrieval_pass_hits`: append if new. -/
def addUniq (acc : List String) (p : String) : List String :=
  if p ∈ acc then acc else acc ++ [p]

theorem foldl_mergeRec_hits (tl : List (String × NRecord)) :
    ∀ r : NRecord,
    (tl.foldl (fun r2 q => mergeRec r2 q.1 q.2) r).hits
      = (tl.map Prod.fst).foldl addUniq r.hits := by
  induction tl with
  | nil => intro r; rfl
  | cons q tl ih => intro r; exact ih (mergeRec r q.1 q.2)

theorem addUniq_mem (acc : List String) (p x : String) :
    x ∈ addUniq acc p ↔ x ∈ acc ∨ x = p := by
  unfold addUniq
  by_cases h : p ∈ acc
  · simp only [h, if_pos]
    constructor
    · exact Or.inl
    · rintro (hx | rfl)
      · exact hx
      · exact h
  · simp [h]

theorem addUniq_fold_mem (ps : List String) :
    ∀ (acc : List String) (x : String), x ∈ ps.foldl addUniq acc ↔ x ∈ acc ∨ x ∈ ps := by
  induction ps with
  | nil => intro acc x; simp
  | cons p ps ih =>
    intro acc x
    rw [List.foldl_cons, ih (addUniq acc p) x, addUniq_mem]
    simp only [List.mem_cons]
    tauto

theorem addUniq_fold_nodup (ps : List String) :
    ∀ acc : List String, acc.Nodup → (ps.foldl addUniq acc).Nodup := by
  induction ps with
  | nil => intro acc h; exact h
  | cons p ps ih =>
    intro acc h
    apply ih
    unfold addUniq
    by_cases hp : p ∈ acc
    · simpa [hp] using h
    · simp [hp, List.nodup_append, h]

instance : IsTotal String strLeRel := ⟨strLe_total⟩

instance : IsTrans String strLeRel := ⟨strLe_trans⟩

theorem finalizeRec_hits (r : NRecord) :
    List.Sorted strLeRel (finalizeRec r).hits
    ∧ (finalizeRec r).hits.Nodup
    ∧ (∀ p, p ∈ (finalizeRec r).hits ↔ p ∈ r.hits) := by
  refine ⟨List.sorted_insertionSort strLeRel _, ?_, ?_⟩
  · exact ((List.perm_insertionSort strLeRel _).nodup_iff).mpr (List.nodup_dedup _)
  · intro p
    have hfin : (finalizeRec r).hits = List.insertionSort strLeRel r.hits.dedup := rfl
    rw [hfin, (List.perm_insertionSort strLeRel _).mem_iff, List.mem_dedup]



theorem assoc_entry_spec (prs : List (String × RawRecord)) (e : String × NRecord)
    (he : e ∈ dedupeAssoc prs) :
    ∃ p0 n0 tl, occsFor prs e.1 = (p0, n0) :: tl
      ∧ dedupeKey n0 = e.1
      ∧ e.2.patent_number = n0.patent_number
      ∧ e.2.title = n0.title
      ∧ e.2.patent_date = n0.patent_date
      ∧ e.2.link = n0.link
      ∧ e.2.source_provider = n0.source_provider
      ∧ e.2.patent_type = n0.patent_type
      ∧ e.2.assignee_type = n0.assignee_type
      ∧ e.2.abstract = (if n0.abstract ≠ "" then n0.abstract
          else ((tl.map (fun q => q.2.abstract)).find? (fun s2 => !(s2 == ""))).getD "")
      ∧ e.2.filing_date = (if truthyO n0.filing_date then n0.filing_date
          else ((tl.map (fun q => q.2.filing_date)).find? truthyO).getD n0.filing_date)
      ∧ e.2.hits = (tl.map Prod.fst).foldl addUniq [p0] := by
  obtain ⟨hnodup, hmemiff, hcollapse⟩ := dedupeAssoc_spec prs
  have hsome : ((dedupeAssoc prs).lookup e.1).isSome = true :=
    (lookup_isSome_iff _ _).mpr (List.mem_map_of_mem Prod.fst he)
  have hne : occsFor prs e.1 ≠ [] := (hmemiff e.1).mp hsome
  obtain ⟨p0, n0, tl, hocc⟩ : ∃ p0 n0 tl, occsFor prs e.1 = (p0, n0) :: tl := by
    cases hcase : occsFor prs e.1 with
    | nil => exact absurd hcase hne
    | cons h t =>
      obtain ⟨hp, hn⟩ := h
      exact ⟨hp, hn, t, rfl⟩
  have hkey : dedupeKey n0 = e.1 :=
    occsFor_key prs e.1 (p0, n0) (by rw [hocc]; exact List.mem_cons_self _ _)
  have hcol : e.2 = tl.foldl (fun r2 q => mergeRec r2 q.1 q.2) (initRec p0 n0) := by
    rw [hcollapse e he, hocc]
    rfl
  have hfields := foldl_mergeRec_fields tl (initRec p0 n0)
  refine ⟨p0, n0, tl, hocc, hkey, ?_, ?_, ?_, ?_, ?_, ?_, ?_, ?_, ?_, ?_⟩
  · rw [hcol]; exact hfields.1
  · rw [hcol]; exact hfields.2.1
  · rw [hcol]; exact hfields.2.2.1
  · rw [hcol]; exact hfields.2.2.2.1
  · rw [hcol]; exact hfields.2.2.2.2.1
  · rw [hcol]; exact hfields.2.2.2.2.2.1
  · rw [hcol]; exact hfields.2.2.2.2.2.2
  · rw [hcol]; exact foldl_mergeRec_abstract tl (initRec p0 n0)
  · rw [hcol]; exact foldl_mergeRec_filing tl (initRec p0 n0)
  · rw [hcol]; exact foldl_mergeRec_hits tl (initRec p0 n0)

/-- C7 (amended) — `_dedupe_and_normalize_records` returns at most as
many records as input pairs; every NON-EMPTY identifier appears on at
most one output record (uniqueness of the fallback `title|filing-date`
key for identifier-less records can fail: see the counterexample);
each output record keeps the fields of its key's first occurrence,
later passes only backfilling a missing (empty/None) abstract or
filing date with the first non-missing later value; and each record
carries the sorted duplicate-free set of the pass names that surfaced
its key. -/
theorem dedupe_and_normalize_spec (prs : List (String × RawRecord)) :
    (dedupe_and_normalize_records prs).length ≤ prs.length
    ∧ List.Pairwise
        (fun a b : NRecord => a.patent_number = "" ∨ a.patent_number ≠ b.patent_number)
        (dedupe_and_normalize_records prs)
    ∧ ∀ r ∈ dedupe_and_normalize_records prs, ∃ k p0 n0 tl,
        occsFor prs k = (p0, n0) :: tl
        ∧ dedupeKey n0 = k
        ∧ r.patent_number = n0.patent_number
        ∧ r.title = n0.title
        ∧ r.patent_date = n0.patent_date
        ∧ r.link = n0.link
        ∧ r.source_provider = n0.source_provider
        ∧ r.patent_type = n0.patent_type
        ∧ r.assignee_type = n0.assignee_type
        ∧ r.abstract = (if n0.abstract ≠ "" then n0.abstract
            else ((tl.map (fun q => q.2.abstract)).find? (fun s2 => !(s2 == ""))).getD "")
        ∧ r.filing_date = (if truthyO n0.filing_date then n0.filing_date
            else ((tl.map (fun q => q.2.filing_date)).find? truthyO).getD n0.filing_date)
        ∧ List.Sorted strLeRel r.hits
        ∧ r.hits.Nodup
        ∧ (∀ pn, pn ∈ r.hits ↔ pn ∈ (occsFor prs k).map Prod.fst) := by
  obtain ⟨hnodup, hmemiff, hcollapse⟩ := dedupeAssoc_spec prs
  refine ⟨?_, ?_, ?_⟩
  · unfold dedupe_and_normalize_records
    rw [List.length_map]
    exact dedupeAssoc_length prs
  · unfold dedupe_and_normalize_records
    rw [List.pairwise_map]
    have hpw : List.Pairwise (fun e1 e2 : String × NRecord => e1.1 ≠ e2.1)
        (dedupeAssoc prs) := by
      rw [← List.pairwise_map (f := Prod.fst)]
      exact hnodup
    refine hpw.imp_of_mem ?_
    intro e1 e2 h1 h2 hne
    by_cases hz : (finalizeRec e1.2).patent_number = ""
    · exact Or.inl hz
    · right
      obtain ⟨p0, n0, tl, _, hkey, hnum, _⟩ := assoc_entry_spec prs e1 h1
      obtain ⟨q0, m0, tl2, _, hkey2, hnum2, _⟩ := assoc_entry_spec prs e2 h2
      intro heq
      apply hne
      have hz2 : e1.2.patent_number ≠ "" := hz
      have heq2 : e1.2.patent_number = e2.2.patent_number := heq
      have hnz : n0.patent_number ≠ "" := hnum ▸ hz2
      have hmz : m0.patent_number ≠ "" := by
        rw [← hnum2, ← heq2]
        exact hz2
      have hk1 : e1.1 = n0.patent_number := by
        rw [← hkey]
        unfold dedupeKey
        rw [if_pos hnz]
      have hk2 : e2.1 = m0.patent_number := by
        rw [← hkey2]
        unfold dedupeKey
        rw [if_pos hmz]
      rw [hk1, hk2, ← hnum, ← hnum2, heq2]
  · intro r hr
    unfold dedupe_and_normalize_records at hr
    obtain ⟨e, he, hfe⟩ := List.mem_map.mp hr
    obtain ⟨p0, n0, tl, hocc, hkey, hnum, htit, hpd, hlink, hsp, hpt, hat, habs, hfil,
      hhits⟩ := assoc_entry_spec prs e he
    have hfh := finalizeRec_hits e.2
    refine ⟨e.1, p0, n0, tl, hocc, hkey, ?_, ?_, ?_, ?_, ?_, ?_, ?_, ?_, ?_, ?_, ?_, ?_⟩
    · rw [← hfe]; exact hnum
    · rw [← hfe]; exact htit
    · rw [← hfe]; exact hpd
    · rw [← hfe]; exact hlink
    · rw [← hfe]; exact hsp
    · rw [← hfe]; exact hpt
    · rw [← hfe]; exact hat
    · rw [← hfe]; exact habs
    · rw [← hfe]; exact hfil
    · rw [← hfe]; exact hfh.1
    · rw [← hfe]; exact hfh.2.1
    · intro pn
      rw [← hfe, hfh.2.2 pn, hhits, addUniq_fold_mem, hocc]
      simp

/-- First raw record of the fallback-key counterexample: an
identifier-less record whose title contains the separator. -/
def cxRawA : RawRecord := { title := some "A|B" }

/-- Second raw record: its fallback key collides with the first
record's, and its filing date backfills the stored record. -/
def cxRawB : RawRecord := { title := some "A", filing_date := some "B|None" }

/-- Third raw record: same title and filing date as the backfilled
stored record, yet stored separately. -/
def cxRawC : RawRecord := { title := some "A|B", filing_date := some "B|None" }

set_option maxRecDepth 8000 in
/-- C7 refutation — the fallback dedup key (title plus filing date)
can appear TWICE in the output: a backfilled filing date shifts the
first record's recomputed key onto a later record's key, so two output
records end up with the same empty identifier, the same title and the
same filing date. -/
theorem dedupe_fallback_key_counterexample :
    (dedupe_and_normalize_records [("p1", cxRawA), ("p2", cxRawB), ("p3", cxRawC)]).map
        (fun r => (r.patent_number, r.title, r.filing_date))
      = [("", "A|B", some "B|None"), ("", "A|B", some "B|None")]
    ∧ (dedupe_and_normalize_records [("p1", cxRawA), ("p2", cxRawB), ("p3", cxRawC)]).map
        dedupeKey = ["A|B|B|None", "A|B|B|None"] := by
  refine ⟨by decide, by decide⟩

/-- Raw record of the C7 witness. -/
def wRaw : RawRecord := { patent_id := some "US9" }

/-- Expected deduplicated record of the C7 witness. -/
def wOut : NRecord :=
  { patent_number := "US9", link := "https://patents.google.com/patent/US9",
    source_provider := "patentsview_patentsearch", hits := ["single_pass"] }

set_option maxRecDepth 8000 in
/-- Witness for C7: the specification instantiated on a one-record
input. -/
theorem dedupe_and_normalize_spec_witness :
    wOut ∈ dedupe_and_normalize_records [("single_pass", wRaw)]
    ∧ ∃ k p0 n0 tl,
        occsFor [("single_pass", wRaw)] k = (p0, n0) :: tl
        ∧ dedupeKey n0 = k
        ∧ wOut.patent_number = n0.patent_number
        ∧ wOut.title = n0.title
        ∧ wOut.patent_date = n0.patent_date
        ∧ wOut.link = n0.link
        ∧ wOut.source_provider = n0.source_provider
        ∧ wOut.patent_type = n0.patent_type
        ∧ wOut.assignee_type = n0.assignee_type
        ∧ wOut.abstract = (if n0.abstract ≠ "" then n0.abstract
            else ((tl.map (fun q => q.2.abstract)).find? (fun s2 => !(s2 == ""))).getD "")
        ∧ wOut.filing_date = (if truthyO n0.filing_date then n0.filing_date
            else ((tl.map (fun q => q.2.filing_date)).find? truthyO).getD n0.filing_date)
        ∧ List.Sorted strLeRel wOut.hits
        ∧ wOut.hits.Nodup
        ∧ (∀ pn, pn ∈ wOut.hits ↔ pn ∈ (occsFor [("single_pass", wRaw)] k).map Prod.fst) :=
  have hmem : wOut ∈ dedupe_and_normalize_records [("single_pass", wRaw)] := by decide
  ⟨hmem, (dedupe_and_normalize_spec [("single_pass", wRaw)]).2.2 wOut hmem⟩



/-- Candidate record of the C8 witness. -/
def wCand : NRecord :=
  { patent_number := "US7", title := "Wireless sensor", abstract := "portable device",
    filing_date := some "2001-06-01", hits := ["single_pass"] }

set_option maxRecDepth 8000 in
unseal Rat.add Rat.mul Rat.sub Rat.inv in
/-- Witness for C8: the bounds instantiated on a concrete candidate,
with the index hypothesis discharged on a one-element rerank output. -/
theorem viability_and_retrieval_scores_in_bounds_witness :
    viabilityInBounds (compute_viability_scorecard wCand none ⟨2023, 6, 15⟩).components
    ∧ 0 < (rerank_patent_candidates_v2 (fun _ => 0) (fun _ => 0) [wCand] {} ⟨2023, 6, 15⟩).length
    ∧ retrievalInBounds
        ((rerank_patent_candidates_v2 (fun _ => 0) (fun _ => 0) [wCand] {} ⟨2023, 6, 15⟩).getD 0
          dummyScored).scorecard :=
  have hlen : 0 < (rerank_patent_candidates_v2 (fun _ => 0) (fun _ => 0) [wCand] {}
      ⟨2023, 6, 15⟩).length := by decide
  ⟨viability_and_retrieval_scores_in_bounds.1 wCand none ⟨2023, 6, 15⟩,
    hlen,
    viability_and_retrieval_scores_in_bounds.2 (fun _ => 0) (fun _ => 0) [wCand] {}
      ⟨2023, 6, 15⟩ 0 hlen⟩


end PatentMiner
